import Mathlib

/-!
# Verification development for the `pdu` page decoder

Shallow embedding of `pkg/pgtypes/pgtypes.go`, `internal/pager/pager.go` and
`internal/fileio/fileio.go`.

Modelling conventions
* a Go `[]byte` is a `List Byte` whose capacity equals its length;
* Go unsigned integers are `Nat`, reduced modulo `2^16` where the source
  computes in `uint16` and the value can wrap; `int64` values are `Int`, wrapped
  to 64 bits where the source's arithmetic can overflow;
* an open file is the list of its bytes, read by `ReadAt` as Go documents it;
* a Go function returning `(value, error)` returns an `Outcome`, which
  separates a returned `error` from a runtime panic (slice bounds out of range);
* `binary.BigEndian.Uint16 / Uint32` are the big-endian values of the first
  2 / 4 bytes of their argument and panic on a shorter argument.
-/

namespace Pdu

/-- One octet of a block. -/
abbrev Byte := Fin 256

/-- Errors built by `fmt.Errorf` in `pager.go`, one constructor per format string,
carrying the formatted arguments, and the error values of `os` and `io` that
`fileio.go` returns. -/
inductive Error where
  /-- Message "page data too short: expected at least %d bytes, got %d" -/
  | pageTooShort (expected got : Nat)
  /-- Message "tuple %d is out of bounds: offset=%d, length=%d, page size=%d" -/
  | tupleOutOfBounds (i offset length pageSize : Nat)
  /-- Message "failed to parse tuple %d: %v" -/
  | parseTupleFailed (i : Nat) (cause : Error)
  /-- Message "tuple data too short: expected at least %d bytes, got %d" -/
  | tupleTooShort (expected got : Nat)
  /-- Message "failed to read page %d: %v" -/
  | readPageFailed (pageNumber : Int) (cause : Error)
  /-- Message "failed to parse page %d: %v" -/
  | parsePageFailed (pageNumber : Int) (cause : Error)
  /-- Message "failed to get tuples from page %d: %v" -/
  | getTuplesFailed (pageNumber : Int) (cause : Error)
  /-- Message "failed to process page %d: %v" -/
  | processPageFailed (pageNumber : Int) (cause : Error)
  /-- The value `os.ErrInvalid`. -/
  | invalid
  /-- The value `io.EOF`, returned by `ReadAt` when fewer bytes than asked were read. -/
  | eof
  /-- The error of `ReadAt` on a negative offset. -/
  | negativeOffset
deriving DecidableEq, Repr

/-- Result of a Go call of type `(T, error)`: a value with a nil error, a nil
value with an error, or a runtime panic. -/
inductive Outcome (α : Type) where
  | ok (value : α)
  | error (e : Error)
  | panic
deriving DecidableEq, Repr

/-- The call returned an error value (and no result). -/
def Outcome.isError {α : Type} : Outcome α → Bool
  | .error _ => true
  | _ => false

/-- The call returned a result and a nil error. -/
def Outcome.isOk {α : Type} : Outcome α → Bool
  | .ok _ => true
  | _ => false

/-- Go slice expression `data[lo:hi]` on a slice with `cap = len`;
`none` is the runtime panic "slice bounds out of range". -/
def slice (data : List Byte) (lo hi : Nat) : Option (List Byte) :=
  if lo ≤ hi ∧ hi ≤ data.length then some ((data.drop lo).take (hi - lo)) else none

/-- `binary.BigEndian.Uint16(b)`; `none` is the index panic on `len(b) < 2`. -/
def bigEndianUint16 : List Byte → Option Nat
  | b0 :: b1 :: _ => some (256 * b0.val + b1.val)
  | _ => none

/-- `binary.BigEndian.Uint32(b)`; `none` is the index panic on `len(b) < 4`. -/
def bigEndianUint32 : List Byte → Option Nat
  | b0 :: b1 :: b2 :: b3 :: _ =>
    some (16777216 * b0.val + 65536 * b1.val + 256 * b2.val + b3.val)
  | _ => none

/-- `binary.BigEndian.Uint16(data[lo:hi])`. -/
def readUint16 (data : List Byte) (lo hi : Nat) : Option Nat :=
  (slice data lo hi).bind bigEndianUint16

/-- `binary.BigEndian.Uint32(data[lo:hi])`. -/
def readUint32 (data : List Byte) (lo hi : Nat) : Option Nat :=
  (slice data lo hi).bind bigEndianUint32

namespace pgtypes

def BLCKSZ : Nat := 8192

def LP_UNUSED : Nat := 0
def LP_NORMAL : Nat := 1
def LP_REDIRECT : Nat := 2
def LP_DEAD : Nat := 3

/-- Pointer to a location in the WAL. -/
structure PageXLogRecPtr where
  XLogID : Nat
  XRecOff : Nat
deriving DecidableEq, Repr

/-- Line pointer on a page. -/
structure ItemIdData where
  LpOff : Nat
  LpFlags : Nat
  LpLen : Nat
deriving DecidableEq, Repr

/-- Header of a heap page. -/
structure HeapPageHeaderData where
  PDLSN : PageXLogRecPtr
  PDChecksum : Nat
  PDFlags : Nat
  PDLower : Nat
  PDUpper : Nat
  PDSpecial : Nat
  PDPagesizeVersion : Nat
  PDPruneXID : Nat
deriving DecidableEq, Repr

/-- Header of a heap tuple (`THeap` and `TField3` flattened). -/
structure HeapTupleHeaderData where
  TXmin : Nat
  TXmax : Nat
  TCid : Nat
  TXvac : Nat
  TCTID : List Byte
  TInfomask2 : Nat
  TInfomask : Nat
  THoff : Nat
  TBits : List Byte
deriving DecidableEq, Repr

/-- The Go zero value of `HeapTupleHeaderData`. -/
def HeapTupleHeaderData.zero : HeapTupleHeaderData :=
  { TXmin := 0, TXmax := 0, TCid := 0, TXvac := 0, TCTID := List.replicate 6 0,
    TInfomask2 := 0, TInfomask := 0, THoff := 0, TBits := [] }

/-- `ReadHeapPageHeader`: the nine fixed header fields, read in source order. -/
def ReadHeapPageHeader (data : List Byte) : Option HeapPageHeaderData := do
  let xLogID ← readUint32 data 0 4
  let xRecOff ← readUint32 data 4 8
  let checksum ← readUint16 data 8 10
  let flags ← readUint16 data 10 12
  let lower ← readUint16 data 12 14
  let upper ← readUint16 data 14 16
  let special ← readUint16 data 16 18
  let pagesizeVersion ← readUint16 data 18 20
  let pruneXID ← readUint32 data 20 24
  pure { PDLSN := { XLogID := xLogID, XRecOff := xRecOff },
         PDChecksum := checksum, PDFlags := flags,
         PDLower := lower, PDUpper := upper, PDSpecial := special,
         PDPagesizeVersion := pagesizeVersion, PDPruneXID := pruneXID }

/-- `ReadItemIdData`: offset from the first two bytes, flags and length from the
packed second pair. -/
def ReadItemIdData (data : List Byte) (offset : Nat) : Option ItemIdData := do
  let lpOff ← readUint16 data offset (offset + 2)
  let w ← readUint16 data (offset + 2) (offset + 4)
  let w2 ← readUint16 data (offset + 2) (offset + 4)
  pure { LpOff := lpOff, LpFlags := w &&& 0x0003, LpLen := w2 >>> 2 }

def ItemIdHasStorage (itemId : ItemIdData) : Bool :=
  itemId.LpLen != 0

def ItemIdIsUsed (itemId : ItemIdData) : Bool :=
  itemId.LpFlags != LP_UNUSED

def ItemIdGetOffset (itemId : ItemIdData) : Nat :=
  itemId.LpOff

def ItemIdGetLength (itemId : ItemIdData) : Nat :=
  itemId.LpLen

def ItemIdGetFlags (itemId : ItemIdData) : Nat :=
  itemId.LpFlags

end pgtypes

namespace pager

open pgtypes

def SizeOfPageHeaderData : Nat := 24

def SizeOfItemIdData : Nat := 4

def SizeOfHeapTupleHeader : Nat := 23

/-- A parsed data page. -/
structure Page where
  Header : HeapPageHeaderData
  RawData : List Byte
  ItemIds : List ItemIdData
  ItemCount : Nat
deriving DecidableEq, Repr

/-- A tuple cut out of a page. -/
structure Tuple where
  Header : HeapTupleHeaderData
  Data : List Byte
  Size : Nat
deriving DecidableEq, Repr

/-- The slot count of `ParsePage`: `(PDLower - 24) / 4` in `uint16` arithmetic. -/
def itemCountOf (header : HeapPageHeaderData) : Nat :=
  ((header.PDLower + 65536 - SizeOfPageHeaderData) % 65536) / SizeOfItemIdData

/-- The slot-reading loop of `ParsePage`: `remaining` iterations starting at
index `i`; `none` when a read panics. -/
def readItemIds (pageData : List Byte) : (remaining : Nat) → (i : Nat) → Option (List ItemIdData)
  | 0, _ => some []
  | k + 1, i =>
    match ReadItemIdData pageData (SizeOfPageHeaderData + i * SizeOfItemIdData) with
    | none => none
    | some itemId => (readItemIds pageData k (i + 1)).map (fun rest => itemId :: rest)

/-- `PgPageParser.ParsePage`. -/
def ParsePage (pageData : List Byte) : Outcome Page :=
  if pageData.length < BLCKSZ then
    .error (.pageTooShort BLCKSZ pageData.length)
  else
    match ReadHeapPageHeader pageData with
    | none => .panic
    | some header =>
      let itemCount := itemCountOf header
      match readItemIds pageData itemCount 0 with
      | none => .panic
      | some itemIds =>
        .ok { Header := header, RawData := pageData, ItemIds := itemIds, ItemCount := itemCount }

/-- `PgPageParser.ParseTuple`. -/
def ParseTuple (data : List Byte) : Outcome Tuple :=
  if data.length < SizeOfHeapTupleHeader then
    .error (.tupleTooShort SizeOfHeapTupleHeader data.length)
  else
    .ok { Header := HeapTupleHeaderData.zero, Data := data, Size := 0 }

/-- The loop of `PgPageParser.GetTuples` over the slots from index `i` on, with
the tuples appended so far. -/
def getTuplesLoop (rawData : List Byte) : (i : Nat) → List ItemIdData → List Tuple → Outcome (List Tuple)
  | _, [], tuples => .ok tuples
  | i, itemId :: rest, tuples =>
    if !ItemIdIsUsed itemId || !ItemIdHasStorage itemId then
      getTuplesLoop rawData (i + 1) rest tuples
    else
      let offset := ItemIdGetOffset itemId
      let length := ItemIdGetLength itemId
      if offset + length > rawData.length then
        .error (.tupleOutOfBounds i offset length rawData.length)
      else
        match slice rawData offset (offset + length) with
        | none => .panic
        | some tupleData =>
          match ParseTuple tupleData with
          | .error e => .error (.parseTupleFailed i e)
          | .panic => .panic
          | .ok tuple => getTuplesLoop rawData (i + 1) rest (tuples ++ [{ tuple with Size := length }])

/-- `PgPageParser.GetTuples`. -/
def GetTuples (page : Page) : Outcome (List Tuple) :=
  getTuplesLoop page.RawData 0 page.ItemIds []

end pager

end Pdu

/-! ## Notions used to state the properties -/

namespace Pdu

open pgtypes pager

/-- The slot passes the skip test of `GetTuples` (`ItemIdIsUsed` and
`ItemIdHasStorage` both hold), so the loop goes on to extract it. -/
def isExtracted (itemId : ItemIdData) : Bool :=
  ItemIdIsUsed itemId && ItemIdHasStorage itemId

/-- Live slot in the words of the specification: state normal and length above zero. -/
def isLive (itemId : ItemIdData) : Bool :=
  itemId.LpFlags == LP_NORMAL && decide (0 < itemId.LpLen)

/-- The tuple `GetTuples` appends for an extracted slot: zero header, the bytes
`RawData[offset : offset+length]`, and `Size = length`. -/
def tupleOf (rawData : List Byte) (itemId : ItemIdData) : Tuple :=
  { Header := HeapTupleHeaderData.zero,
    Data := (rawData.drop itemId.LpOff).take itemId.LpLen,
    Size := itemId.LpLen }

/-- Header invariant of the specification:
`header_size ≤ lower ≤ upper ≤ special ≤ block_length`. -/
def headerInvariant (hdr : HeapPageHeaderData) (blockLength : Nat) : Prop :=
  24 ≤ hdr.PDLower ∧ hdr.PDLower ≤ hdr.PDUpper ∧ hdr.PDUpper ≤ hdr.PDSpecial ∧
    hdr.PDSpecial ≤ blockLength

/-- Slot range `[offset, offset+length)` lies within `[lower, special)`. -/
def slotWithin (hdr : HeapPageHeaderData) (itemId : ItemIdData) : Prop :=
  hdr.PDLower ≤ itemId.LpOff ∧ itemId.LpOff + itemId.LpLen ≤ hdr.PDSpecial

/-- Packed 4-byte encoding of a slot in the words of the specification: 2-byte
big-endian offset, then the 2-byte big-endian word `4 * length + state`. -/
def encodeItemId (itemId : ItemIdData) : List Byte :=
  [Fin.ofNat (itemId.LpOff / 256), Fin.ofNat (itemId.LpOff % 256),
   Fin.ofNat ((4 * itemId.LpLen + itemId.LpFlags) / 256),
   Fin.ofNat ((4 * itemId.LpLen + itemId.LpFlags) % 256)]

/-! ## Concrete blocks -/

/-- The header value decoded from `mkHeader lower upper special`. -/
def headerOf (lower upper special : Nat) : HeapPageHeaderData :=
  { PDLSN := { XLogID := 0, XRecOff := 0 }, PDChecksum := 0, PDFlags := 0,
    PDLower := lower, PDUpper := upper, PDSpecial := special,
    PDPagesizeVersion := 8196, PDPruneXID := 0 }

/-- The header value decoded from 24 zero bytes. -/
def zeroHeader : HeapPageHeaderData :=
  { PDLSN := { XLogID := 0, XRecOff := 0 }, PDChecksum := 0, PDFlags := 0,
    PDLower := 0, PDUpper := 0, PDSpecial := 0, PDPagesizeVersion := 0, PDPruneXID := 0 }


/-- A 24-byte page header with the given `lower`, `upper`, `special`; LSN, checksum,
flags and prune XID zero, pagesize/version `0x2004`. -/
def mkHeader (lower upper special : Nat) : List Byte :=
  [0, 0, 0, 0, 0, 0, 0, 0, 0, 0, 0, 0,
   Fin.ofNat (lower / 256), Fin.ofNat (lower % 256),
   Fin.ofNat (upper / 256), Fin.ofNat (upper % 256),
   Fin.ofNat (special / 256), Fin.ofNat (special % 256),
   0x20, 0x04, 0, 0, 0, 0]

/-- Header and slot table of the block of the concrete scenario: `lower = 28`,
`upper = 8180`, `special = 8192`, one slot `1F F4 00 31`. -/
def specHead : List Byte :=
  mkHeader 28 8180 8192 ++ [0x1F, 0xF4, 0x00, 0x31]

/-- The block of the concrete scenario, with the 12 tuple bytes `t` at offset 8180. -/
def specBlock (t : List Byte) : List Byte :=
  specHead ++ (List.replicate 8152 0 ++ t)

/-- Twelve zero bytes. -/
def zeroTuple : List Byte := List.replicate 12 0

/-- An all-zero 8192-byte block (`lower = 0`). -/
def zeroBlock : List Byte :=
  List.replicate 24 0 ++ List.replicate 8168 0

/-- An 8192-byte block whose header has `lower = 8200`, beyond the block. -/
def overBlock : List Byte :=
  mkHeader 8200 8200 8192 ++ List.replicate 8168 0

/-- Header and slot table of a block with `lower = 28 > upper = 24` and one unused slot. -/
def crossedHead : List Byte :=
  mkHeader 28 24 8192 ++ [0, 0, 0, 0]

/-- An 8192-byte block with `lower = 28 > upper = 24`. -/
def crossedBlock : List Byte :=
  crossedHead ++ List.replicate 8164 0

/-- Header and slot table with one dead slot that has storage:
`{offset 8000, state LP_DEAD, length 23}`, bytes `1F 40 00 5F`. -/
def deadHead : List Byte :=
  mkHeader 28 8000 8192 ++ [0x1F, 0x40, 0x00, 0x5F]

/-- An 8192-byte block whose only slot is dead with 23 bytes of storage. -/
def deadBlock : List Byte :=
  deadHead ++ List.replicate 8164 0

/-- Header and slot table with one normal slot pointing into the page header:
`{offset 0, state LP_NORMAL, length 23}`, bytes `00 00 00 5D`. -/
def lowHead : List Byte :=
  mkHeader 28 8192 8192 ++ [0x00, 0x00, 0x00, 0x5D]

/-- An 8192-byte block whose only slot covers bytes `[0, 23)`, below `lower = 28`. -/
def lowBlock : List Byte :=
  lowHead ++ List.replicate 8164 0

/-- The page `ParsePage` returns for the block of the concrete scenario. -/
def specPage (t : List Byte) : Page :=
  { Header := headerOf 28 8180 8192, RawData := specBlock t,
    ItemIds := [{ LpOff := 8180, LpFlags := 1, LpLen := 12 }], ItemCount := 1 }

/-- The page `ParsePage` returns for `deadBlock`. -/
def deadPage : Page :=
  { Header := headerOf 28 8000 8192, RawData := deadBlock,
    ItemIds := [{ LpOff := 8000, LpFlags := 3, LpLen := 23 }], ItemCount := 1 }

/-- The page `ParsePage` returns for `lowBlock`. -/
def lowPage : Page :=
  { Header := headerOf 28 8192 8192, RawData := lowBlock,
    ItemIds := [{ LpOff := 0, LpFlags := 1, LpLen := 23 }], ItemCount := 1 }

/-- A page whose only slot `{offset 8190, normal, length 23}` ends beyond the block. -/
def overPage : Page :=
  { Header := { PDLSN := { XLogID := 0, XRecOff := 0 }, PDChecksum := 0, PDFlags := 0,
                PDLower := 28, PDUpper := 8190, PDSpecial := 8192,
                PDPagesizeVersion := 8196, PDPruneXID := 0 },
    RawData := zeroBlock,
    ItemIds := [{ LpOff := 8190, LpFlags := 1, LpLen := 23 }],
    ItemCount := 1 }

end Pdu

/-! ## `internal/fileio/fileio.go` and the page processor of `pager.go` -/

namespace Pdu

open pgtypes

namespace fileio

/-- Two's-complement wrap of an integer to the range of `int64`. -/
def wrapInt64 (x : Int) : Int :=
  (x + 9223372036854775808) % 18446744073709551616 - 9223372036854775808

/-- `PgFileReader`: the open file (`none` before `Open`; an open file is the
sequence of its bytes) and the size recorded by `Open`. -/
structure PgFileReader where
  file : Option (List Byte)
  fileSize : Int

/-- `NewPgFileReader`. -/
def NewPgFileReader : PgFileReader :=
  { file := none, fileSize := 0 }

/-- The reader after a successful `Open` of a file with the given contents:
`fileSize` is the size reported by `Stat`. -/
def opened (contents : List Byte) : PgFileReader :=
  { file := some contents, fileSize := (contents.length : Int) }

/-- `(*os.File).ReadAt(buffer, off)` for a buffer of `bufLen` bytes: the count `n`,
the buffer after the call, and the error. A nil file gives `os.ErrInvalid`, a
negative offset an error, and fewer than `bufLen` bytes read gives `io.EOF`. -/
def ReadAt (file : Option (List Byte)) (bufLen : Nat) (off : Int) :
    Nat × List Byte × Option Error :=
  match file with
  | none => (0, List.replicate bufLen 0, some .invalid)
  | some contents =>
    if off < 0 then (0, List.replicate bufLen 0, some .negativeOffset)
    else
      let got := (contents.drop off.toNat).take bufLen
      (got.length, got ++ List.replicate (bufLen - got.length) 0,
        if got.length < bufLen then some .eof else none)

/-- The byte offset `pageNumber * int64(BLCKSZ)` computed by `ReadPage`. -/
def pageOffset (pageNumber : Int) : Int :=
  wrapInt64 (pageNumber * (BLCKSZ : Int))

/-- The number of bytes `ReadPage` asks for at byte offset `offset`. -/
def bytesToReadAt (fileSize offset : Int) : Int :=
  if wrapInt64 (offset + (BLCKSZ : Int)) > fileSize then wrapInt64 (fileSize - offset)
  else (BLCKSZ : Int)

/-- `PgFileReader.ReadPage`. -/
def PgFileReader.ReadPage (r : PgFileReader) (pageNumber : Int) : Outcome (List Byte) :=
  let offset := pageOffset pageNumber
  if offset ≥ r.fileSize then
    .error .invalid
  else
    let bytesToRead := bytesToReadAt r.fileSize offset
    if bytesToRead < 0 then
      .panic
    else
      match ReadAt r.file bytesToRead.toNat offset with
      | (_, _, some err) => .error err
      | (n, buffer, none) =>
        if (n : Int) ≠ bytesToRead then .error .invalid else .ok buffer

/-- `PgFileReader.GetPageCount`; Go integer division and remainder truncate. -/
def PgFileReader.GetPageCount (r : PgFileReader) : Int :=
  if r.fileSize = 0 then 0
  else
    let pageCount := Int.tdiv r.fileSize (BLCKSZ : Int)
    if Int.tmod r.fileSize (BLCKSZ : Int) > 0 then pageCount + 1 else pageCount

/-- The part of the `FileReader` interface the page processor calls. -/
structure FileReader where
  ReadPage : Int → Outcome (List Byte)
  GetPageCount : Int

/-- `PgFileReader` as a `FileReader`. -/
def PgFileReader.toFileReader (r : PgFileReader) : FileReader :=
  { ReadPage := r.ReadPage, GetPageCount := r.GetPageCount }

end fileio

namespace pager

open fileio

/-- `PageProcessor.ProcessPage`, with `PgPageParser` as the parser. -/
def ProcessPage (reader : FileReader) (pageNumber : Int) : Outcome (Page × List Tuple) :=
  match reader.ReadPage pageNumber with
  | .error err => .error (.readPageFailed pageNumber err)
  | .panic => .panic
  | .ok pageData =>
    match ParsePage pageData with
    | .error err => .error (.parsePageFailed pageNumber err)
    | .panic => .panic
    | .ok page =>
      match GetTuples page with
      | .error err => .error (.getTuplesFailed pageNumber err)
      | .panic => .panic
      | .ok tuples => .ok (page, tuples)

/-- The loop of `PageProcessor.ProcessAllPages`: `remaining = pageCount - pageNumber`
iterations are left; `printed` collects the arguments of the lines
"Page %d: %d tuples" written so far. Returns what was printed and the error value. -/
def processLoop (reader : FileReader) :
    (remaining : Nat) → (pageNumber : Int) → List (Int × Nat) → List (Int × Nat) × Outcome Unit
  | 0, _, printed => (printed, .ok ())
  | k + 1, pageNumber, printed =>
    match ProcessPage reader pageNumber with
    | .error err => (printed, .error (.processPageFailed pageNumber err))
    | .panic => (printed, .panic)
    | .ok (_, tuples) =>
      processLoop reader k (pageNumber + 1) (printed ++ [(pageNumber, tuples.length)])

/-- `PageProcessor.ProcessAllPages`: the printed lines and the returned error
(`ok ()` is a nil error). -/
def ProcessAllPages (reader : FileReader) : List (Int × Nat) × Outcome Unit :=
  processLoop reader reader.GetPageCount.toNat 0 []

end pager

end Pdu

/-! ## Notions and inputs for the tuple, reader and processor properties -/

namespace Pdu

open pgtypes pager fileio

/-- Big-endian value of the two bytes at offsets `o`, `o + 1`. -/
def be16At (data : List Byte) (o : Nat) : Nat :=
  256 * (data.getD o 0).val + (data.getD (o + 1) 0).val

/-- Big-endian value of the four bytes at offsets `o .. o + 3`. -/
def be32At (data : List Byte) (o : Nat) : Nat :=
  16777216 * (data.getD o 0).val + 65536 * (data.getD (o + 1) 0).val +
    256 * (data.getD (o + 2) 0).val + (data.getD (o + 3) 0).val

/-- The bytes of an extracted slot can be cut and parsed: its range ends inside the
block and it has at least the 23 bytes `ParseTuple` asks for. -/
def isReadable (rawData : List Byte) (itemId : ItemIdData) : Prop :=
  itemId.LpOff + itemId.LpLen ≤ rawData.length ∧ 23 ≤ itemId.LpLen

/-- Twenty-three zero bytes: a tuple of minimum size whose stored `hoff` is 0
wherever it is kept. -/
def zeroTuple23 : List Byte := List.replicate 23 0

/-- Twenty-four tuple bytes `1, 2, .., 24`. -/
def countTuple : List Byte :=
  [1, 2, 3, 4, 5, 6, 7, 8, 9, 10, 11, 12, 13, 14, 15, 16, 17, 18, 19, 20, 21, 22, 23, 24]

/-- Header and slot table with two normal slots: `{offset 8000, length 23}` (bytes
`1F 40 00 5D`) and `{offset 8100, length 12}` (bytes `1F A4 00 31`). -/
def mixedHead : List Byte :=
  mkHeader 32 8000 8192 ++ [0x1F, 0x40, 0x00, 0x5D] ++ [0x1F, 0xA4, 0x00, 0x31]

/-- An 8192-byte block with one readable and one too short tuple. -/
def mixedBlock : List Byte :=
  mixedHead ++ List.replicate 8160 0

/-- The page `ParsePage` returns for `mixedBlock`. -/
def mixedPage : Page :=
  { Header := headerOf 32 8000 8192, RawData := mixedBlock,
    ItemIds := [{ LpOff := 8000, LpFlags := 1, LpLen := 23 },
                { LpOff := 8100, LpFlags := 1, LpLen := 12 }],
    ItemCount := 2 }

/-- An 8193-byte block: the head of the concrete scenario followed by zero bytes. -/
def longBlock : List Byte :=
  specHead ++ List.replicate 8165 0

/-- A reader of a two-page file whose page 0 cannot be read and whose page 1 is
`deadBlock`. -/
def brokenFirstReader : FileReader :=
  { ReadPage := fun pageNumber => if pageNumber = 0 then .error .invalid else .ok deadBlock,
    GetPageCount := 2 }

/-- A reader of a three-page file whose page 0 is `deadBlock` and whose later pages
cannot be read. -/
def brokenSecondReader : FileReader :=
  { ReadPage := fun pageNumber => if pageNumber = 0 then .ok deadBlock else .error .invalid,
    GetPageCount := 3 }

/-- A file of 100 zero bytes. -/
def smallFile : List Byte := List.replicate 100 0

end Pdu

/-! ## Notions and inputs for the bounds properties -/

namespace Pdu

open pgtypes pager fileio

/-- The bounds check of `ReadPage` lets the page number through: the test
`offset >= r.fileSize` is false. -/
def fileio.PgFileReader.accepts (r : PgFileReader) (pageNumber : Int) : Bool :=
  !decide (pageOffset pageNumber ≥ r.fileSize)

/-- The page number `2^51`, whose byte offset `2^51 * 8192 = 2^64` wraps to 0. -/
def hugePage : Int := 2251799813685248

/-- The largest `int64` value, `2^63 - 1`, as a file size. -/
def maxFileSize : Int := 9223372036854775807

end Pdu

/-! ## Theorems -/

namespace Pdu

open pgtypes pager fileio

/-! ### Slices and big-endian reads -/

theorem slice_eq_some {data : List Byte} {lo hi : Nat} (h1 : lo ≤ hi) (h2 : hi ≤ data.length) :
    slice data lo hi = some ((data.drop lo).take (hi - lo)) := by
  simp [slice, h1, h2]

theorem slice_eq_none {data : List Byte} {lo hi : Nat} (h : data.length < hi) :
    slice data lo hi = none := by
  have : ¬ (lo ≤ hi ∧ hi ≤ data.length) := by omega
  simp [slice, this]

theorem slice_append_left {a : List Byte} (b : List Byte) {lo hi : Nat} (h : hi ≤ a.length) :
    slice (a ++ b) lo hi = slice a lo hi := by
  unfold slice
  by_cases hc : lo ≤ hi
  · have h1 : hi ≤ (a ++ b).length := by rw [List.length_append]; omega
    have h3 : (List.drop lo a).length = a.length - lo := List.length_drop lo a
    have h2 : (List.drop lo (a ++ b)).take (hi - lo) = (List.drop lo a).take (hi - lo) := by
      rw [List.drop_append_of_le_length (by omega), List.take_append_of_le_length (by omega)]
    rw [if_pos ⟨hc, h1⟩, if_pos ⟨hc, h⟩, h2]
  · simp [hc]

theorem slice_append_right (a t b : List Byte) :
    slice (a ++ t ++ b) a.length (a.length + t.length) = some t := by
  have h2 : a.length + t.length ≤ (a ++ t ++ b).length := by
    simp only [List.length_append]; omega
  rw [slice_eq_some (Nat.le_add_right _ _) h2]
  simp [List.append_assoc, List.drop_left, List.take_left]

theorem drop_eq_four_cons {data : List Byte} {o : Nat} (h : o + 4 ≤ data.length) :
    data.drop o = data[o] :: data[o + 1] :: data[o + 2] :: data[o + 3] :: data.drop (o + 4) := by
  rw [List.drop_eq_getElem_cons (by omega : o < data.length),
    List.drop_eq_getElem_cons (by omega : o + 1 < data.length),
    List.drop_eq_getElem_cons (by omega : o + 1 + 1 < data.length),
    List.drop_eq_getElem_cons (by omega : o + 1 + 1 + 1 < data.length)]

theorem readUint16_of_drop {data : List Byte} {o : Nat} {b0 b1 : Byte} {rest : List Byte}
    (h : data.drop o = b0 :: b1 :: rest) :
    readUint16 data o (o + 2) = some (256 * b0.val + b1.val) := by
  have hl : (data.drop o).length = data.length - o := List.length_drop o data
  rw [h] at hl
  simp only [List.length_cons] at hl
  have h2 : o + 2 ≤ data.length := by omega
  unfold readUint16
  rw [slice_eq_some (Nat.le_add_right _ _) h2, h]
  simp [bigEndianUint16]

theorem readUint32_of_drop {data : List Byte} {o : Nat} {b0 b1 b2 b3 : Byte} {rest : List Byte}
    (h : data.drop o = b0 :: b1 :: b2 :: b3 :: rest) :
    readUint32 data o (o + 4) =
      some (16777216 * b0.val + 65536 * b1.val + 256 * b2.val + b3.val) := by
  have hl : (data.drop o).length = data.length - o := List.length_drop o data
  rw [h] at hl
  simp only [List.length_cons] at hl
  have h2 : o + 4 ≤ data.length := by omega
  unfold readUint32
  rw [slice_eq_some (Nat.le_add_right _ _) h2, h]
  simp [bigEndianUint32]

theorem readUint16_append_left {a : List Byte} (b : List Byte) {lo hi : Nat} (h : hi ≤ a.length) :
    readUint16 (a ++ b) lo hi = readUint16 a lo hi := by
  unfold readUint16
  rw [slice_append_left b h]

theorem readUint32_append_left {a : List Byte} (b : List Byte) {lo hi : Nat} (h : hi ≤ a.length) :
    readUint32 (a ++ b) lo hi = readUint32 a lo hi := by
  unfold readUint32
  rw [slice_append_left b h]

theorem readUint16_eq_none {data : List Byte} {lo hi : Nat} (h : data.length < hi) :
    readUint16 data lo hi = none := by
  simp [readUint16, slice_eq_none h]

theorem and_three_eq_mod (w : Nat) : w &&& 0x0003 = w % 4 :=
  Nat.and_pow_two_sub_one_eq_mod w 2

theorem shiftRight_two_eq_div (w : Nat) : w >>> 2 = w / 4 :=
  Nat.shiftRight_eq_div_pow w 2

/-! ### `ReadItemIdData` -/

theorem ReadItemIdData_of_drop {data : List Byte} {o : Nat} {b0 b1 b2 b3 : Byte}
    {rest : List Byte} (h : data.drop o = b0 :: b1 :: b2 :: b3 :: rest) :
    ReadItemIdData data o =
      some { LpOff := 256 * b0.val + b1.val,
             LpFlags := (256 * b2.val + b3.val) % 4,
             LpLen := (256 * b2.val + b3.val) / 4 } := by
  have h2 : data.drop (o + 2) = b2 :: b3 :: rest := by
    rw [← List.drop_drop, h]; rfl
  unfold ReadItemIdData
  rw [readUint16_of_drop h, readUint16_of_drop h2]
  simp [and_three_eq_mod, shiftRight_two_eq_div]

theorem ReadItemIdData_eq_none {data : List Byte} {o : Nat} (h : data.length < o + 4) :
    ReadItemIdData data o = none := by
  unfold ReadItemIdData
  rw [readUint16_eq_none h]
  cases readUint16 data o (o + 2) <;> rfl

theorem ReadItemIdData_append_left {a : List Byte} (b : List Byte) {o : Nat}
    (h : o + 4 ≤ a.length) : ReadItemIdData (a ++ b) o = ReadItemIdData a o := by
  unfold ReadItemIdData
  rw [readUint16_append_left b (by omega : o + 2 ≤ a.length), readUint16_append_left b h]

/-! ### `ReadHeapPageHeader` -/

theorem bigEndianUint16_lt {b : List Byte} {v : Nat} (h : bigEndianUint16 b = some v) :
    v < 65536 := by
  match b, h with
  | b0 :: b1 :: _, h =>
    simp only [bigEndianUint16, Option.some.injEq] at h
    have h0 := b0.isLt
    have h1 := b1.isLt
    omega

theorem readUint16_lt {data : List Byte} {lo hi v : Nat} (h : readUint16 data lo hi = some v) :
    v < 65536 := by
  unfold readUint16 at h
  cases hs : slice data lo hi with
  | none => rw [hs] at h; cases h
  | some b => rw [hs] at h; exact bigEndianUint16_lt h

theorem ReadHeapPageHeader_lower {data : List Byte} {hdr : HeapPageHeaderData}
    (h : ReadHeapPageHeader data = some hdr) : readUint16 data 12 14 = some hdr.PDLower := by
  simp only [ReadHeapPageHeader, bind, Option.bind_eq_some, pure, Option.some.injEq] at h
  obtain ⟨a1, -, a2, -, a3, -, a4, -, a5, h5, a6, -, a7, -, a8, -, a9, -, rfl⟩ := h
  exact h5

theorem ReadHeapPageHeader_lower_lt {data : List Byte} {hdr : HeapPageHeaderData}
    (h : ReadHeapPageHeader data = some hdr) : hdr.PDLower < 65536 :=
  readUint16_lt (ReadHeapPageHeader_lower h)

theorem ReadHeapPageHeader_append_left {a : List Byte} (b : List Byte) (h : 24 ≤ a.length) :
    ReadHeapPageHeader (a ++ b) = ReadHeapPageHeader a := by
  unfold ReadHeapPageHeader
  rw [readUint32_append_left b (by omega : 4 ≤ a.length),
    readUint32_append_left b (by omega : 8 ≤ a.length),
    readUint16_append_left b (by omega : 10 ≤ a.length),
    readUint16_append_left b (by omega : 12 ≤ a.length),
    readUint16_append_left b (by omega : 14 ≤ a.length),
    readUint16_append_left b (by omega : 16 ≤ a.length),
    readUint16_append_left b (by omega : 18 ≤ a.length),
    readUint16_append_left b (by omega : 20 ≤ a.length),
    readUint32_append_left b (by omega : 24 ≤ a.length)]

/-! ### The slot loop of `ParsePage` -/

theorem itemCountOf_eq {hdr : HeapPageHeaderData} (h1 : 24 ≤ hdr.PDLower)
    (h2 : hdr.PDLower < 65536) : itemCountOf hdr = (hdr.PDLower - 24) / 4 := by
  unfold itemCountOf SizeOfPageHeaderData SizeOfItemIdData
  have : (hdr.PDLower + 65536 - 24) % 65536 = hdr.PDLower - 24 := by omega
  rw [this]

theorem itemCountOf_wrap {hdr : HeapPageHeaderData} (h1 : hdr.PDLower < 24) :
    itemCountOf hdr = (65536 + hdr.PDLower - 24) / 4 := by
  unfold itemCountOf SizeOfPageHeaderData SizeOfItemIdData
  have : (hdr.PDLower + 65536 - 24) % 65536 = 65536 + hdr.PDLower - 24 := by omega
  rw [this]

theorem slotOffset_eq (i : Nat) : SizeOfPageHeaderData + i * SizeOfItemIdData = 24 + 4 * i := by
  unfold SizeOfPageHeaderData SizeOfItemIdData; omega

theorem readItemIds_some (data : List Byte) :
    ∀ (k i : Nat), 24 + 4 * (i + k) ≤ data.length →
      ∃ ids, readItemIds data k i = some ids ∧ ids.length = k ∧
        ∀ (j : Nat) (hj : j < ids.length),
          ReadItemIdData data (24 + 4 * (i + j)) = some ids[j] := by
  intro k
  induction k with
  | zero =>
    intro i _
    exact ⟨[], rfl, rfl, fun j hj => absurd hj (Nat.not_lt_zero j)⟩
  | succ k ih =>
    intro i h
    obtain ⟨rest, hrest, hlen, hget⟩ := ih (i + 1) (by omega)
    have hd := drop_eq_four_cons (by omega : 24 + 4 * i + 4 ≤ data.length)
    obtain ⟨it, hread⟩ : ∃ it, ReadItemIdData data (24 + 4 * i) = some it :=
      ⟨_, ReadItemIdData_of_drop hd⟩
    refine ⟨it :: rest, ?_, by simp [hlen], ?_⟩
    · simp only [readItemIds, slotOffset_eq, hread, hrest, Option.map_some']
    · intro j hj
      cases j with
      | zero => simpa using hread
      | succ j =>
        have := hget j (by simpa using hj)
        simpa [Nat.add_assoc, Nat.add_comm 1 j] using this

theorem readItemIds_none (data : List Byte) :
    ∀ (k i : Nat), data.length < 24 + 4 * (i + k) → 0 < k → readItemIds data k i = none := by
  intro k
  induction k with
  | zero => intro i _ h; exact absurd h (Nat.lt_irrefl 0)
  | succ k ih =>
    intro i h _
    by_cases hfit : 24 + 4 * i + 4 ≤ data.length
    · have hk : 0 < k := by omega
      have hrec := ih (i + 1) (by omega) hk
      simp only [readItemIds, slotOffset_eq, hrec, Option.map_none']
      cases ReadItemIdData data (24 + 4 * i) <;> rfl
    · have hread := ReadItemIdData_eq_none (by omega : data.length < 24 + 4 * i + 4)
      simp only [readItemIds, slotOffset_eq, hread]

theorem readItemIds_append_left {a : List Byte} (b : List Byte) :
    ∀ (k i : Nat), 24 + 4 * (i + k) ≤ a.length →
      readItemIds (a ++ b) k i = readItemIds a k i := by
  intro k
  induction k with
  | zero => intro i _; rfl
  | succ k ih =>
    intro i h
    simp only [readItemIds, slotOffset_eq]
    rw [ReadItemIdData_append_left b (by omega : 24 + 4 * i + 4 ≤ a.length),
      ih (i + 1) (by omega)]

/-! ### `ParsePage` -/

theorem ParsePage_short {block : List Byte} (h : block.length < 8192) :
    ParsePage block = .error (.pageTooShort 8192 block.length) := by
  simp [ParsePage, BLCKSZ, h]

theorem ParsePage_ok {block : List Byte} {hdr : HeapPageHeaderData} {ids : List ItemIdData}
    (hlen : 8192 ≤ block.length) (hhdr : ReadHeapPageHeader block = some hdr)
    (hids : readItemIds block (itemCountOf hdr) 0 = some ids) :
    ParsePage block =
      .ok { Header := hdr, RawData := block, ItemIds := ids, ItemCount := itemCountOf hdr } := by
  have : ¬ block.length < BLCKSZ := by unfold BLCKSZ; omega
  simp [ParsePage, this, hhdr, hids]

theorem ParsePage_panic {block : List Byte} {hdr : HeapPageHeaderData}
    (hlen : 8192 ≤ block.length) (hhdr : ReadHeapPageHeader block = some hdr)
    (hbig : block.length < 24 + 4 * itemCountOf hdr) : ParsePage block = .panic := by
  have hne : ¬ block.length < BLCKSZ := by unfold BLCKSZ; omega
  have hpos : 0 < itemCountOf hdr := by omega
  have hnone := readItemIds_none block (itemCountOf hdr) 0 (by omega) hpos
  simp [ParsePage, hne, hhdr, hnone]

theorem ParsePage_of_head {a : List Byte} (b : List Byte) (hdr : HeapPageHeaderData)
    {ids : List ItemIdData} (hlen : 8192 ≤ (a ++ b).length)
    (hhdr : ReadHeapPageHeader a = some hdr) (h24 : 24 ≤ a.length)
    (ha : 24 + 4 * (0 + itemCountOf hdr) ≤ a.length)
    (hids : readItemIds a (itemCountOf hdr) 0 = some ids) :
    ParsePage (a ++ b) =
      .ok { Header := hdr, RawData := a ++ b, ItemIds := ids, ItemCount := itemCountOf hdr } := by
  apply ParsePage_ok hlen
  · rw [ReadHeapPageHeader_append_left b h24]; exact hhdr
  · rw [readItemIds_append_left b _ 0 ha]; exact hids

/-! ### `ParseTuple` and the loop of `GetTuples` -/

theorem ParseTuple_short {data : List Byte} (h : data.length < 23) :
    ParseTuple data = .error (.tupleTooShort 23 data.length) := by
  simp [ParseTuple, SizeOfHeapTupleHeader, h]

theorem ParseTuple_ok {data : List Byte} (h : 23 ≤ data.length) :
    ParseTuple data = .ok { Header := HeapTupleHeaderData.zero, Data := data, Size := 0 } := by
  have : ¬ data.length < 23 := by omega
  simp [ParseTuple, SizeOfHeapTupleHeader, this]

theorem length_take_drop {raw : List Byte} {off len : Nat} (h : off + len ≤ raw.length) :
    ((raw.drop off).take len).length = len := by
  rw [List.length_take, List.length_drop]; omega

theorem slice_tuple {raw : List Byte} {off len : Nat} (h : off + len ≤ raw.length) :
    slice raw off (off + len) = some ((raw.drop off).take len) := by
  rw [slice_eq_some (Nat.le_add_right _ _) h, Nat.add_sub_cancel_left]

theorem getTuplesLoop_skip (raw : List Byte) (i : Nat) {it : ItemIdData}
    (rest : List ItemIdData) (acc : List Tuple) (h : isExtracted it = false) :
    getTuplesLoop raw i (it :: rest) acc = getTuplesLoop raw (i + 1) rest acc := by
  unfold isExtracted at h
  cases hu : ItemIdIsUsed it <;> cases hs : ItemIdHasStorage it <;>
    simp [getTuplesLoop, hu, hs] at h ⊢

theorem getTuplesLoop_oob (raw : List Byte) (i : Nat) {it : ItemIdData}
    (rest : List ItemIdData) (acc : List Tuple) (h : isExtracted it = true)
    (hb : raw.length < it.LpOff + it.LpLen) :
    getTuplesLoop raw i (it :: rest) acc =
      .error (.tupleOutOfBounds i it.LpOff it.LpLen raw.length) := by
  unfold isExtracted at h
  cases hu : ItemIdIsUsed it <;> cases hs : ItemIdHasStorage it <;>
    simp [getTuplesLoop, hu, hs, ItemIdGetOffset, ItemIdGetLength, hb] at h ⊢

theorem getTuplesLoop_short (raw : List Byte) (i : Nat) {it : ItemIdData}
    (rest : List ItemIdData) (acc : List Tuple) (h : isExtracted it = true)
    (hb : it.LpOff + it.LpLen ≤ raw.length) (hs : it.LpLen < 23) :
    getTuplesLoop raw i (it :: rest) acc =
      .error (.parseTupleFailed i (.tupleTooShort 23 it.LpLen)) := by
  have hnb : ¬ raw.length < it.LpOff + it.LpLen := by omega
  have hl : ((raw.drop it.LpOff).take it.LpLen).length < 23 := by
    rw [length_take_drop hb]; exact hs
  have hp := ParseTuple_short hl
  rw [length_take_drop hb] at hp
  unfold isExtracted at h
  cases hu : ItemIdIsUsed it <;> cases hst : ItemIdHasStorage it <;>
    simp [getTuplesLoop, hu, hst, ItemIdGetOffset, ItemIdGetLength, hnb, slice_tuple hb, hp] at h ⊢

theorem getTuplesLoop_take (raw : List Byte) (i : Nat) {it : ItemIdData}
    (rest : List ItemIdData) (acc : List Tuple) (h : isExtracted it = true)
    (hb : it.LpOff + it.LpLen ≤ raw.length) (hs : 23 ≤ it.LpLen) :
    getTuplesLoop raw i (it :: rest) acc =
      getTuplesLoop raw (i + 1) rest (acc ++ [tupleOf raw it]) := by
  have hnb : ¬ raw.length < it.LpOff + it.LpLen := by omega
  have hl : 23 ≤ ((raw.drop it.LpOff).take it.LpLen).length := by
    rw [length_take_drop hb]; exact hs
  have hp := ParseTuple_ok hl
  unfold isExtracted at h
  cases hu : ItemIdIsUsed it <;> cases hst : ItemIdHasStorage it <;>
    simp [getTuplesLoop, hu, hst, ItemIdGetOffset, ItemIdGetLength, hnb, slice_tuple hb, hp,
      tupleOf] at h ⊢

theorem getTuplesLoop_ok_spec (raw : List Byte) :
    ∀ (items : List ItemIdData) (i : Nat) (acc ts : List Tuple),
      getTuplesLoop raw i items acc = .ok ts →
        ts = acc ++ (items.filter isExtracted).map (tupleOf raw) ∧
          ∀ it ∈ items, isExtracted it = true →
            it.LpOff + it.LpLen ≤ raw.length ∧ 23 ≤ it.LpLen := by
  intro items
  induction items with
  | nil =>
    intro i acc ts h
    simp only [getTuplesLoop, Outcome.ok.injEq] at h
    subst h
    simp
  | cons it rest ih =>
    intro i acc ts h
    cases hx : isExtracted it with
    | false =>
      rw [getTuplesLoop_skip raw i rest acc hx] at h
      obtain ⟨h1, h2⟩ := ih (i + 1) acc ts h
      refine ⟨by simpa [List.filter_cons, hx] using h1, ?_⟩
      intro x hxm hxe
      rcases List.mem_cons.mp hxm with rfl | hr
      · rw [hx] at hxe; cases hxe
      · exact h2 x hr hxe
    | true =>
      by_cases hb : it.LpOff + it.LpLen ≤ raw.length
      · by_cases hs : 23 ≤ it.LpLen
        · rw [getTuplesLoop_take raw i rest acc hx hb hs] at h
          obtain ⟨h1, h2⟩ := ih (i + 1) _ ts h
          refine ⟨by simpa [List.filter_cons, hx] using h1, ?_⟩
          intro x hxm hxe
          rcases List.mem_cons.mp hxm with rfl | hr
          · exact ⟨hb, hs⟩
          · exact h2 x hr hxe
        · rw [getTuplesLoop_short raw i rest acc hx hb (by omega)] at h
          cases h
      · rw [getTuplesLoop_oob raw i rest acc hx (by omega)] at h
        cases h

theorem getTuplesLoop_error_of_oob (raw : List Byte) :
    ∀ (items : List ItemIdData) (i : Nat) (acc : List Tuple),
      (∃ it ∈ items, isExtracted it = true ∧ raw.length < it.LpOff + it.LpLen) →
        (getTuplesLoop raw i items acc).isError = true := by
  intro items
  induction items with
  | nil =>
    intro i acc h
    obtain ⟨it, hm, -⟩ := h
    cases hm
  | cons it rest ih =>
    intro i acc h
    obtain ⟨x, hm, hxe, hxb⟩ := h
    cases hx : isExtracted it with
    | false =>
      rw [getTuplesLoop_skip raw i rest acc hx]
      rcases List.mem_cons.mp hm with rfl | hr
      · rw [hx] at hxe; cases hxe
      · exact ih (i + 1) acc ⟨x, hr, hxe, hxb⟩
    | true =>
      by_cases hb : it.LpOff + it.LpLen ≤ raw.length
      · by_cases hs : 23 ≤ it.LpLen
        · rw [getTuplesLoop_take raw i rest acc hx hb hs]
          rcases List.mem_cons.mp hm with rfl | hr
          · omega
          · exact ih (i + 1) _ ⟨x, hr, hxe, hxb⟩
        · rw [getTuplesLoop_short raw i rest acc hx hb (by omega)]; rfl
      · rw [getTuplesLoop_oob raw i rest acc hx (by omega)]; rfl

/-! ### The slot table written by `encodeItemId` -/

theorem byte_val (a : Nat) : (Fin.ofNat a : Byte).val = a % 256 := rfl

theorem ReadItemIdData_encoded {data : List Byte} {o : Nat} {x : ItemIdData}
    (hx : x.LpOff < 65536 ∧ x.LpFlags < 4 ∧ x.LpLen < 16384)
    (h : (data.drop o).take 4 = encodeItemId x) : ReadItemIdData data o = some x := by
  have hd : data.drop o = encodeItemId x ++ (data.drop o).drop 4 := by
    rw [← h, List.take_append_drop]
  simp only [encodeItemId, List.cons_append, List.nil_append] at hd
  rw [ReadItemIdData_of_drop hd]
  obtain ⟨off, flags, len⟩ := x
  simp only [byte_val] at hx ⊢
  simp only [Option.some.injEq, ItemIdData.mk.injEq]
  omega

theorem readItemIds_encoded (data : List Byte) :
    ∀ (s : List ItemIdData) (i : Nat),
      (∀ x ∈ s, x.LpOff < 65536 ∧ x.LpFlags < 4 ∧ x.LpLen < 16384) →
      (∀ (j : Nat) (hj : j < s.length),
        (data.drop (24 + 4 * (i + j))).take 4 = encodeItemId s[j]) →
      readItemIds data s.length i = some s := by
  intro s
  induction s with
  | nil => intro i _ _; rfl
  | cons x r ih =>
    intro i hv henc
    have h0 := henc 0 (by simp)
    have hread := ReadItemIdData_encoded (hv x (List.mem_cons_self x r)) h0
    have hrec := ih (i + 1) (fun y hy => hv y (List.mem_cons_of_mem x hy)) (by
      intro j hj
      have := henc (j + 1) (by simpa using hj)
      simpa [Nat.add_assoc, Nat.add_comm 1 j] using this)
    simp only [List.length_cons, readItemIds, slotOffset_eq]
    rw [Nat.add_zero] at hread
    rw [hread, hrec]
    rfl

/-! ### Evaluation on the concrete blocks -/

theorem specBlock_length {t : List Byte} (ht : t.length = 12) : (specBlock t).length = 8192 := by
  simp only [specBlock, specHead, mkHeader, List.length_append, List.length_replicate,
    List.length_cons, List.length_nil, ht]

theorem ParsePage_specBlock {t : List Byte} (ht : t.length = 12) :
    ParsePage (specBlock t) = .ok (specPage t) := by
  have hlen : 8192 ≤ (specHead ++ (List.replicate 8152 0 ++ t)).length :=
    Nat.le_of_eq (specBlock_length ht).symm
  exact ParsePage_of_head _ (headerOf 28 8180 8192) hlen (by decide) (by decide)
    (by decide) (by decide)

theorem zeroBlock_length : zeroBlock.length = 8192 := by
  simp only [zeroBlock, List.length_append, List.length_replicate]

theorem ReadHeapPageHeader_zeroBlock : ReadHeapPageHeader zeroBlock = some zeroHeader := by
  unfold zeroBlock
  rw [ReadHeapPageHeader_append_left _ (by decide)]
  decide

theorem overBlock_length : overBlock.length = 8192 := by
  simp only [overBlock, mkHeader, List.length_append, List.length_replicate,
    List.length_cons, List.length_nil]

theorem ReadHeapPageHeader_overBlock :
    ReadHeapPageHeader overBlock = some (headerOf 8200 8200 8192) := by
  unfold overBlock
  rw [ReadHeapPageHeader_append_left _ (by decide)]
  decide

theorem crossedBlock_length : crossedBlock.length = 8192 := by
  simp only [crossedBlock, crossedHead, mkHeader, List.length_append, List.length_replicate,
    List.length_cons, List.length_nil]

theorem ReadHeapPageHeader_crossedBlock :
    ReadHeapPageHeader crossedBlock = some (headerOf 28 24 8192) := by
  unfold crossedBlock
  rw [ReadHeapPageHeader_append_left _ (by decide)]
  decide

theorem deadBlock_length : deadBlock.length = 8192 := by
  simp only [deadBlock, deadHead, mkHeader, List.length_append, List.length_replicate,
    List.length_cons, List.length_nil]

theorem ParsePage_deadBlock :
    ParsePage deadBlock = .ok deadPage := by
  have hlen : 8192 ≤ (deadHead ++ List.replicate 8164 0).length :=
    Nat.le_of_eq deadBlock_length.symm
  exact ParsePage_of_head _ (headerOf 28 8000 8192) hlen (by decide) (by decide)
    (by decide) (by decide)

theorem lowBlock_length : lowBlock.length = 8192 := by
  simp only [lowBlock, lowHead, mkHeader, List.length_append, List.length_replicate,
    List.length_cons, List.length_nil]

theorem ParsePage_lowBlock :
    ParsePage lowBlock = .ok lowPage := by
  have hlen : 8192 ≤ (lowHead ++ List.replicate 8164 0).length :=
    Nat.le_of_eq lowBlock_length.symm
  exact ParsePage_of_head _ (headerOf 28 8192 8192) hlen (by decide) (by decide)
    (by decide) (by decide)

theorem GetTuples_single_take {hdr : HeapPageHeaderData} {raw : List Byte} {it : ItemIdData}
    {n : Nat} (hx : isExtracted it = true) (hb : it.LpOff + it.LpLen ≤ raw.length)
    (hs : 23 ≤ it.LpLen) :
    GetTuples { Header := hdr, RawData := raw, ItemIds := [it], ItemCount := n } =
      .ok [tupleOf raw it] := by
  unfold GetTuples
  rw [getTuplesLoop_take raw 0 [] [] hx hb hs]
  rfl

theorem GetTuples_single_short {hdr : HeapPageHeaderData} {raw : List Byte} (it : ItemIdData)
    {n : Nat} (hx : isExtracted it = true) (hb : it.LpOff + it.LpLen ≤ raw.length)
    (hs : it.LpLen < 23) :
    GetTuples { Header := hdr, RawData := raw, ItemIds := [it], ItemCount := n } =
      .error (.parseTupleFailed 0 (.tupleTooShort 23 it.LpLen)) := by
  unfold GetTuples
  rw [getTuplesLoop_short raw 0 [] [] hx hb hs]

theorem take_drop_append_left {a : List Byte} (b : List Byte) {o n : Nat}
    (h : o + n ≤ a.length) : ((a ++ b).drop o).take n = (a.drop o).take n := by
  have h3 : (List.drop o a).length = a.length - o := List.length_drop o a
  rw [List.drop_append_of_le_length (by omega), List.take_append_of_le_length (by omega)]

theorem GetTuples_deadPage :
    GetTuples deadPage = .ok [tupleOf deadBlock { LpOff := 8000, LpFlags := 3, LpLen := 23 }] :=
  GetTuples_single_take (by decide) (by rw [deadBlock_length]; decide) (by decide)

theorem GetTuples_specPage {t : List Byte} (ht : t.length = 12) :
    GetTuples (specPage t) = .error (.parseTupleFailed 0 (.tupleTooShort 23 12)) :=
  GetTuples_single_short { LpOff := 8180, LpFlags := 1, LpLen := 12 } (by decide)
    (by rw [specBlock_length ht]; decide) (by decide)

/-! ## The claims -/

/-- C1 (as stated, refuted): the 8192-byte block `crossedBlock` has a header with
`lower = 28 > upper = 24`, so the invariant `24 ≤ lower ≤ upper ≤ special ≤ len(block)`
fails, and `ParsePage` still returns a page, not an error. -/
theorem ParsePage_accepts_crossed_header :
    ∃ hdr page, ReadHeapPageHeader crossedBlock = some hdr ∧ hdr.PDUpper < hdr.PDLower ∧
      ¬ headerInvariant hdr crossedBlock.length ∧
      ParsePage crossedBlock = .ok page ∧ (ParsePage crossedBlock).isError = false := by
  have hlen : 8192 ≤ (crossedHead ++ List.replicate 8164 0).length :=
    Nat.le_of_eq crossedBlock_length.symm
  have hp : ParsePage crossedBlock =
      .ok { Header := headerOf 28 24 8192, RawData := crossedBlock,
            ItemIds := [{ LpOff := 0, LpFlags := 0, LpLen := 0 }], ItemCount := 1 } :=
    ParsePage_of_head _ (headerOf 28 24 8192) hlen (by decide) (by decide)
      (by decide) (by decide)
  refine ⟨headerOf 28 24 8192, _, ReadHeapPageHeader_crossedBlock, by decide, ?_, hp, ?_⟩
  · intro h
    have h2 : (28 : Nat) ≤ 24 := h.2.1
    omega
  · rw [hp]; rfl

/-- C1 (amended): `ParsePage` returns an error for a block shorter than 8192 bytes, and
it does not validate the ordering of `lower`, `upper`, `special`: every block of at
least 8192 bytes whose header has `24 ≤ lower ≤ len(block)` is returned as a page
carrying that header, whatever `upper` and `special` are. -/
theorem ParsePage_header_not_validated (block : List Byte) (hdr : HeapPageHeaderData) :
    (block.length < 8192 → (ParsePage block).isError = true) ∧
    (8192 ≤ block.length → ReadHeapPageHeader block = some hdr →
      24 ≤ hdr.PDLower → hdr.PDLower ≤ block.length →
      ∃ page, ParsePage block = .ok page ∧ page.Header = hdr ∧ page.RawData = block) := by
  constructor
  · intro h
    rw [ParsePage_short h]; rfl
  · intro hlen hhdr h24 hle
    have hcnt := itemCountOf_eq h24 (ReadHeapPageHeader_lower_lt hhdr)
    obtain ⟨ids, hids, -, -⟩ := readItemIds_some block (itemCountOf hdr) 0 (by omega)
    exact ⟨_, ParsePage_ok hlen hhdr hids, rfl, rfl⟩

/-- Witness for C1 (amended): a 100-byte block is rejected, and `crossedBlock`
(`lower = 28`, `upper = 24`) is returned as a page. -/
theorem ParsePage_header_not_validated_witness :
    (List.replicate 100 (0 : Byte)).length < 8192 ∧
    (ParsePage (List.replicate 100 (0 : Byte))).isError = true ∧
    8192 ≤ crossedBlock.length ∧
    ReadHeapPageHeader crossedBlock = some (headerOf 28 24 8192) ∧
    ∃ page, ParsePage crossedBlock = .ok page ∧ page.Header = headerOf 28 24 8192 ∧
      page.RawData = crossedBlock :=
  ⟨by simp only [List.length_replicate]; omega,
   (ParsePage_header_not_validated (List.replicate 100 0) zeroHeader).1
     (by simp only [List.length_replicate]; omega),
   Nat.le_of_eq crossedBlock_length.symm,
   ReadHeapPageHeader_crossedBlock,
   (ParsePage_header_not_validated crossedBlock (headerOf 28 24 8192)).2
     (Nat.le_of_eq crossedBlock_length.symm) ReadHeapPageHeader_crossedBlock
     (by decide) (by rw [crossedBlock_length]; decide)⟩

/-- C2 (the code at the failing inputs): on the all-zero 8192-byte block, and on the
8192-byte block whose header has `lower = 8200`, `ParsePage` neither returns a page
nor an error: the slot read at offset 8192 is out of range and the call panics. -/
theorem ParsePage_panics_on_zero_block :
    ParsePage zeroBlock = .panic ∧ ParsePage overBlock = .panic := by
  constructor
  · exact ParsePage_panic (Nat.le_of_eq zeroBlock_length.symm) ReadHeapPageHeader_zeroBlock
      (by rw [zeroBlock_length]; decide)
  · exact ParsePage_panic (Nat.le_of_eq overBlock_length.symm) ReadHeapPageHeader_overBlock
      (by rw [overBlock_length]; decide)

/-- C3: for every block of at least 8192 bytes whose header has
`24 ≤ lower ≤ len(block)`, `ParsePage` succeeds, `ItemCount = len(ItemIds) =
(lower - 24) / 4`, and `ItemIds[i]` is the slot `ReadItemIdData` decodes at offset
`24 + 4 * i`, for every `i < ItemCount`. -/
theorem ParsePage_slot_table (block : List Byte) (hdr : HeapPageHeaderData)
    (hlen : 8192 ≤ block.length) (hhdr : ReadHeapPageHeader block = some hdr)
    (h24 : 24 ≤ hdr.PDLower) (hle : hdr.PDLower ≤ block.length) :
    ∃ page, ParsePage block = .ok page ∧
      page.ItemCount = (hdr.PDLower - 24) / 4 ∧
      page.ItemIds.length = page.ItemCount ∧
      ∀ (i : Nat) (hi : i < page.ItemIds.length),
        ReadItemIdData block (24 + 4 * i) = some page.ItemIds[i] := by
  have hcnt := itemCountOf_eq h24 (ReadHeapPageHeader_lower_lt hhdr)
  obtain ⟨ids, hids, hl, hget⟩ := readItemIds_some block (itemCountOf hdr) 0 (by omega)
  refine ⟨_, ParsePage_ok hlen hhdr hids, hcnt, hl, ?_⟩
  intro i hi
  have := hget i hi
  simpa using this

/-- Witness for C3: the block of the concrete scenario (`lower = 28`, slot bytes
`1F F4 00 31` at offset 24). -/
theorem ParsePage_slot_table_witness :
    8192 ≤ (specBlock zeroTuple).length ∧
    ReadHeapPageHeader (specBlock zeroTuple) = some (headerOf 28 8180 8192) ∧
    ReadItemIdData (specBlock zeroTuple) 24 =
      some { LpOff := 8180, LpFlags := 1, LpLen := 12 } ∧
    ∃ page, ParsePage (specBlock zeroTuple) = .ok page ∧
      page.ItemCount = ((headerOf 28 8180 8192).PDLower - 24) / 4 ∧
      page.ItemIds.length = page.ItemCount ∧
      ∀ (i : Nat) (hi : i < page.ItemIds.length),
        ReadItemIdData (specBlock zeroTuple) (24 + 4 * i) = some page.ItemIds[i] :=
  have hlen : (specBlock zeroTuple).length = 8192 := specBlock_length (by decide)
  have hhdr : ReadHeapPageHeader (specBlock zeroTuple) = some (headerOf 28 8180 8192) := by
    unfold specBlock
    rw [ReadHeapPageHeader_append_left _ (by decide)]
    decide
  have hslot : ReadItemIdData (specBlock zeroTuple) 24 =
      some { LpOff := 8180, LpFlags := 1, LpLen := 12 } := by
    unfold specBlock
    rw [ReadItemIdData_append_left _ (by decide)]
    decide
  ⟨Nat.le_of_eq hlen.symm, hhdr, hslot,
   ParsePage_slot_table (specBlock zeroTuple) (headerOf 28 8180 8192)
     (Nat.le_of_eq hlen.symm) hhdr (by decide) (by rw [hlen]; decide)⟩

/-- C4: for every byte sequence `data` and offset `o` with `o + 4 ≤ len(data)`,
`ReadItemIdData data o` returns `LpOff` = the big-endian value of bytes `[o, o+2)`,
and with `w` the big-endian value of bytes `[o+2, o+4)`, `LpFlags = w mod 4` and
`LpLen = w div 4`. -/
theorem ReadItemIdData_fields (data : List Byte) (o : Nat) (h : o + 4 ≤ data.length) :
    ReadItemIdData data o =
      some { LpOff := 256 * data[o].val + data[o + 1].val,
             LpFlags := (256 * data[o + 2].val + data[o + 3].val) % 4,
             LpLen := (256 * data[o + 2].val + data[o + 3].val) / 4 } :=
  ReadItemIdData_of_drop (drop_eq_four_cons h)

/-- Witness for C4: the slot bytes `1F F4 00 31` decode to offset 8180, state 1,
length 12. -/
theorem ReadItemIdData_fields_witness :
    0 + 4 ≤ ([0x1F, 0xF4, 0x00, 0x31] : List Byte).length ∧
    ReadItemIdData [0x1F, 0xF4, 0x00, 0x31] 0 =
      some { LpOff := 8180, LpFlags := 1, LpLen := 12 } :=
  ⟨by decide, (ReadItemIdData_fields [0x1F, 0xF4, 0x00, 0x31] 0 (by decide)).trans (by decide)⟩

/-- C5: round trip of the slot table. For every list `s` of at most 2042 slots with
fields in range and every 8192-byte block whose header has `lower = 24 + 4 * len(s)`
and whose bytes `[24+4i, 28+4i)` are the packed encoding of `s[i]`, `ParsePage`
returns `ItemIds = s`; hence the decoded slots with state normal and length above
zero are as many as were put into the page. -/
theorem ParsePage_round_trip (s : List ItemIdData) (block : List Byte)
    (hdr : HeapPageHeaderData) (hs : s.length ≤ 2042)
    (hv : ∀ x ∈ s, x.LpOff < 65536 ∧ x.LpFlags < 4 ∧ x.LpLen < 16384)
    (hlen : block.length = 8192) (hhdr : ReadHeapPageHeader block = some hdr)
    (hlower : hdr.PDLower = 24 + 4 * s.length)
    (henc : ∀ (i : Nat) (hi : i < s.length),
      (block.drop (24 + 4 * i)).take 4 = encodeItemId s[i]) :
    ∃ page, ParsePage block = .ok page ∧ page.ItemIds = s ∧
      page.ItemIds.countP isLive = s.countP isLive := by
  have hcnt : itemCountOf hdr = s.length := by
    rw [itemCountOf_eq (by omega) (by omega)]; omega
  have hids : readItemIds block (itemCountOf hdr) 0 = some s := by
    rw [hcnt]
    exact readItemIds_encoded block s 0 hv (by simpa using henc)
  exact ⟨_, ParsePage_ok (by omega) hhdr hids, rfl, rfl⟩

/-- Witness for C5: the block of the concrete scenario holds the one-slot table
`[{offset 8180, normal, length 12}]`. -/
theorem ParsePage_round_trip_witness :
    (specBlock zeroTuple).length = 8192 ∧
    ReadHeapPageHeader (specBlock zeroTuple) = some (headerOf 28 8180 8192) ∧
    ∃ page, ParsePage (specBlock zeroTuple) = .ok page ∧
      page.ItemIds = [{ LpOff := 8180, LpFlags := 1, LpLen := 12 }] ∧
      page.ItemIds.countP isLive =
        List.countP isLive [{ LpOff := 8180, LpFlags := 1, LpLen := 12 }] :=
  have hlen : (specBlock zeroTuple).length = 8192 := specBlock_length (by decide)
  have hhdr : ReadHeapPageHeader (specBlock zeroTuple) = some (headerOf 28 8180 8192) := by
    unfold specBlock
    rw [ReadHeapPageHeader_append_left _ (by decide)]
    decide
  ⟨hlen, hhdr,
   ParsePage_round_trip [{ LpOff := 8180, LpFlags := 1, LpLen := 12 }] (specBlock zeroTuple)
     (headerOf 28 8180 8192) (by decide) (by decide) hlen hhdr (by decide) (by
       intro i hi
       have hi0 : i = 0 := by simpa using hi
       subst hi0
       unfold specBlock
       rw [take_drop_append_left _ (by decide)]
       show List.take 4 (List.drop 24 specHead) =
         encodeItemId { LpOff := 8180, LpFlags := 1, LpLen := 12 }
       decide)⟩

/-- C6 (the code at the failing input): `deadBlock` parses to a page whose only slot
is `{offset 8000, state LP_DEAD, length 23}`; no slot has state normal, and
`GetTuples` still succeeds with one tuple, cut from the dead slot. -/
theorem GetTuples_extracts_dead_slot :
    ParsePage deadBlock = .ok deadPage ∧
    deadPage.ItemIds = [{ LpOff := 8000, LpFlags := LP_DEAD, LpLen := 23 }] ∧
    deadPage.ItemIds.countP isLive = 0 ∧
    ∃ ts, GetTuples deadPage = .ok ts ∧ ts.length = 1 :=
  ⟨ParsePage_deadBlock, rfl, by decide, _, GetTuples_deadPage, rfl⟩

/-- C7 (as stated, refuted): `lowBlock` parses to a page with `lower = 28`,
`special = 8192` and the extracted slot `{offset 0, normal, length 23}`, whose range
`[0, 23)` is not inside `[lower, special)`; `GetTuples` returns a tuple for it and
no error. -/
theorem GetTuples_accepts_slot_below_lower :
    ∃ it ts, ParsePage lowBlock = .ok lowPage ∧ it ∈ lowPage.ItemIds ∧
      isExtracted it = true ∧ ¬ slotWithin lowPage.Header it ∧
      GetTuples lowPage = .ok ts ∧ ts.length = 1 ∧ (GetTuples lowPage).isError = false := by
  have hg : GetTuples lowPage = .ok [tupleOf lowBlock { LpOff := 0, LpFlags := 1, LpLen := 23 }] :=
    GetTuples_single_take (by decide) (by rw [lowBlock_length]; decide) (by decide)
  refine ⟨{ LpOff := 0, LpFlags := 1, LpLen := 23 }, _, ParsePage_lowBlock,
    List.mem_singleton.mpr rfl, by decide, ?_, hg, rfl, by rw [hg]; rfl⟩
  intro h
  have h1 : (28 : Nat) ≤ 0 := h.1
  omega

/-- C7 (amended): for every page, if some slot from which `GetTuples` would extract a
tuple (state not unused, length not zero) has a byte range `[offset, offset+length)`
that is not contained in the block, that is `offset + length > len(RawData)`,
`GetTuples` returns an error. -/
theorem GetTuples_error_of_slot_beyond_block (page : Page)
    (h : ∃ it ∈ page.ItemIds, isExtracted it = true ∧
      page.RawData.length < it.LpOff + it.LpLen) :
    (GetTuples page).isError = true :=
  getTuplesLoop_error_of_oob page.RawData page.ItemIds 0 [] h

/-- Witness for C7 (amended): the slot `{offset 8190, normal, length 23}` of `overPage`
ends at 8213, beyond the 8192-byte block. -/
theorem GetTuples_error_of_slot_beyond_block_witness :
    (∃ it ∈ overPage.ItemIds, isExtracted it = true ∧
      overPage.RawData.length < it.LpOff + it.LpLen) ∧
    (GetTuples overPage).isError = true :=
  have h : ∃ it ∈ overPage.ItemIds, isExtracted it = true ∧
      overPage.RawData.length < it.LpOff + it.LpLen :=
    ⟨{ LpOff := 8190, LpFlags := 1, LpLen := 23 }, List.mem_singleton.mpr rfl, by decide,
      by show zeroBlock.length < 8190 + 23; rw [zeroBlock_length]; decide⟩
  ⟨h, GetTuples_error_of_slot_beyond_block overPage h⟩

/-- C8: for every page on which `GetTuples` succeeds, the returned tuples are, in slot
order, one per extracted slot, each with `Data` equal to the bytes
`[offset, offset+length)` of `RawData` and `Size = length = len(Data)`. -/
theorem GetTuples_ok_tuples (page : Page) (ts : List Tuple) (h : GetTuples page = .ok ts) :
    ts = (page.ItemIds.filter isExtracted).map (fun it =>
        { Header := HeapTupleHeaderData.zero,
          Data := (page.RawData.drop it.LpOff).take it.LpLen,
          Size := it.LpLen }) ∧
      (∀ it ∈ page.ItemIds, isExtracted it = true →
        it.LpOff + it.LpLen ≤ page.RawData.length ∧
        ((page.RawData.drop it.LpOff).take it.LpLen).length = it.LpLen) ∧
      ∀ t ∈ ts, t.Size = t.Data.length := by
  obtain ⟨h1, h2⟩ := getTuplesLoop_ok_spec page.RawData page.ItemIds 0 [] ts h
  rw [List.nil_append] at h1
  have h3 : ∀ it ∈ page.ItemIds, isExtracted it = true →
      it.LpOff + it.LpLen ≤ page.RawData.length ∧
      ((page.RawData.drop it.LpOff).take it.LpLen).length = it.LpLen :=
    fun it hm hx => ⟨(h2 it hm hx).1, length_take_drop (h2 it hm hx).1⟩
  refine ⟨h1, h3, ?_⟩
  intro t ht
  rw [h1] at ht
  obtain ⟨it, hit, rfl⟩ := List.mem_map.mp ht
  obtain ⟨hm, hx⟩ := List.mem_filter.mp hit
  exact (h3 it hm hx).2.symm

/-- Witness for C8: `GetTuples` succeeds on `deadPage` with the single tuple cut at
`[8000, 8023)`. -/
theorem GetTuples_ok_tuples_witness :
    GetTuples deadPage = .ok [tupleOf deadBlock { LpOff := 8000, LpFlags := 3, LpLen := 23 }] ∧
    (∀ t ∈ [tupleOf deadBlock { LpOff := 8000, LpFlags := 3, LpLen := 23 }],
      t.Size = t.Data.length) :=
  ⟨GetTuples_deadPage, (GetTuples_ok_tuples deadPage _ GetTuples_deadPage).2.2⟩

/-- C9: for every byte sequence, `ParseTuple` returns an error if and only if the
input is shorter than 23 bytes, and every input of 23 or more bytes is accepted. -/
theorem ParseTuple_error_iff (data : List Byte) :
    ((ParseTuple data).isError = true ↔ data.length < 23) ∧
    ((ParseTuple data).isOk = true ↔ 23 ≤ data.length) := by
  by_cases h : data.length < 23
  · rw [ParseTuple_short h]
    refine ⟨⟨fun _ => h, fun _ => rfl⟩, ⟨fun hc => ?_, fun hc => ?_⟩⟩
    · cases hc
    · omega
  · rw [ParseTuple_ok (by omega)]
    refine ⟨⟨fun hc => ?_, fun hc => absurd hc h⟩, ⟨fun _ => ?_, fun _ => rfl⟩⟩
    · cases hc
    · omega

/-- C10 (as stated, refuted): in the concrete scenario with twelve zero tuple bytes,
`ParseTuple` on the 12 bytes does not return a tuple, and `GetTuples` on the parsed
page does not return one tuple: both return an error. -/
theorem scenario_tuple_not_decoded :
    (ParseTuple zeroTuple).isOk = false ∧
    ParsePage (specBlock zeroTuple) = .ok (specPage zeroTuple) ∧
    (GetTuples (specPage zeroTuple)).isOk = false ∧
    (GetTuples (specPage zeroTuple)).isError = true := by
  have hg : GetTuples (specPage zeroTuple) = _ := GetTuples_specPage (by decide)
  refine ⟨by decide, ParsePage_specBlock (by decide), ?_, ?_⟩ <;> rw [hg] <;> rfl

/-- C10 (amended): in the concrete scenario (8192-byte block, `lower = 28`,
`upper = 8180`, `special = 8192`, one slot `{offset 8180, normal, length 12}`, any 12
tuple bytes `t` at offset 8180), `ParsePage` succeeds with that one slot, `ParseTuple`
on the 12 bytes returns the error "tuple data too short" (12 < 23), and `GetTuples`
on the parsed page returns the error "failed to parse tuple 0" and no tuple. -/
theorem scenario_tuple_too_short (t : List Byte) (ht : t.length = 12) :
    (specBlock t).length = 8192 ∧
    slice (specBlock t) 8180 8192 = some t ∧
    ParsePage (specBlock t) = .ok (specPage t) ∧
    (specPage t).ItemIds = [{ LpOff := 8180, LpFlags := LP_NORMAL, LpLen := 12 }] ∧
    ParseTuple t = .error (.tupleTooShort 23 12) ∧
    GetTuples (specPage t) = .error (.parseTupleFailed 0 (.tupleTooShort 23 12)) := by
  refine ⟨specBlock_length ht, ?_, ParsePage_specBlock ht, rfl, ?_, GetTuples_specPage ht⟩
  · have h := slice_append_right (specHead ++ List.replicate 8152 0) t []
    have hl : (specHead ++ List.replicate 8152 (0 : Byte)).length = 8180 := by
      simp only [specHead, mkHeader, List.length_append, List.length_replicate,
        List.length_cons, List.length_nil]
    rw [hl, ht, List.append_nil, List.append_assoc] at h
    exact h
  · have h : ParseTuple t = _ := ParseTuple_short (by omega)
    rw [ht] at h
    exact h

/-- Witness for C10 (amended): twelve zero tuple bytes. -/
theorem scenario_tuple_too_short_witness :
    zeroTuple.length = 12 ∧
    ParseTuple zeroTuple = .error (.tupleTooShort 23 12) ∧
    GetTuples (specPage zeroTuple) = .error (.parseTupleFailed 0 (.tupleTooShort 23 12)) :=
  ⟨by decide, (scenario_tuple_too_short zeroTuple (by decide)).2.2.2.2.1,
   (scenario_tuple_too_short zeroTuple (by decide)).2.2.2.2.2⟩

/-! ### `GetTuples` in terms of readable slots -/

theorem getTuplesLoop_ok_of_readable (raw : List Byte) :
    ∀ (items : List ItemIdData) (i : Nat) (acc : List Tuple),
      (∀ it ∈ items, isExtracted it = true → isReadable raw it) →
        getTuplesLoop raw i items acc =
          .ok (acc ++ (items.filter isExtracted).map (tupleOf raw)) := by
  intro items
  induction items with
  | nil => intro i acc _; simp [getTuplesLoop]
  | cons it rest ih =>
    intro i acc h
    have hrest : ∀ x ∈ rest, isExtracted x = true → isReadable raw x :=
      fun x hx => h x (List.mem_cons_of_mem it hx)
    cases hx : isExtracted it with
    | false =>
      rw [getTuplesLoop_skip raw i rest acc hx, ih (i + 1) acc hrest]
      simp [List.filter_cons, hx]
    | true =>
      obtain ⟨hb, hs⟩ := h it (List.mem_cons_self it rest) hx
      rw [getTuplesLoop_take raw i rest acc hx hb hs, ih (i + 1) _ hrest]
      simp [List.filter_cons, hx]

theorem getTuplesLoop_error_of_unreadable (raw : List Byte) :
    ∀ (items : List ItemIdData) (i : Nat) (acc : List Tuple),
      (∃ it ∈ items, isExtracted it = true ∧ ¬ isReadable raw it) →
        (getTuplesLoop raw i items acc).isError = true := by
  intro items
  induction items with
  | nil =>
    intro i acc h
    obtain ⟨it, hm, -⟩ := h
    cases hm
  | cons it rest ih =>
    intro i acc h
    obtain ⟨x, hm, hxe, hxb⟩ := h
    cases hx : isExtracted it with
    | false =>
      rw [getTuplesLoop_skip raw i rest acc hx]
      rcases List.mem_cons.mp hm with rfl | hr
      · rw [hx] at hxe; cases hxe
      · exact ih (i + 1) acc ⟨x, hr, hxe, hxb⟩
    | true =>
      by_cases hb : it.LpOff + it.LpLen ≤ raw.length
      · by_cases hs : 23 ≤ it.LpLen
        · rw [getTuplesLoop_take raw i rest acc hx hb hs]
          rcases List.mem_cons.mp hm with rfl | hr
          · exact absurd ⟨hb, hs⟩ hxb
          · exact ih (i + 1) _ ⟨x, hr, hxe, hxb⟩
        · rw [getTuplesLoop_short raw i rest acc hx hb (by omega)]; rfl
      · rw [getTuplesLoop_oob raw i rest acc hx (by omega)]; rfl

theorem isExtracted_of_length_zero {it : ItemIdData} (h : it.LpLen = 0) :
    isExtracted it = false := by
  simp [isExtracted, ItemIdHasStorage, h]

theorem mixedBlock_length : mixedBlock.length = 8192 := by
  simp only [mixedBlock, mixedHead, mkHeader, List.length_append, List.length_replicate,
    List.length_cons, List.length_nil]

theorem ParsePage_mixedBlock : ParsePage mixedBlock = .ok mixedPage := by
  have hlen : 8192 ≤ (mixedHead ++ List.replicate 8160 0).length :=
    Nat.le_of_eq mixedBlock_length.symm
  exact ParsePage_of_head _ (headerOf 32 8000 8192) hlen (by decide) (by decide)
    (by decide) (by decide)

theorem GetTuples_mixedPage :
    GetTuples mixedPage = .error (.parseTupleFailed 1 (.tupleTooShort 23 12)) := by
  unfold GetTuples
  show getTuplesLoop mixedBlock 0
      [{ LpOff := 8000, LpFlags := 1, LpLen := 23 }, { LpOff := 8100, LpFlags := 1, LpLen := 12 }]
      [] = _
  rw [getTuplesLoop_take mixedBlock 0 _ [] (by decide) (by rw [mixedBlock_length]; decide)
    (by decide)]
  exact getTuplesLoop_short mixedBlock 1 [] _ (by decide) (by rw [mixedBlock_length]; decide)
    (by decide)

theorem longBlock_length : longBlock.length = 8193 := by
  simp only [longBlock, specHead, mkHeader, List.length_append, List.length_replicate,
    List.length_cons, List.length_nil]

theorem ParsePage_not_error_of_long {block : List Byte} (h : 8192 ≤ block.length) :
    (ParsePage block).isError = false := by
  have hne : ¬ block.length < BLCKSZ := by unfold BLCKSZ; omega
  unfold ParsePage
  rw [if_neg hne]
  cases ReadHeapPageHeader block with
  | none => rfl
  | some hdr =>
    simp only
    cases readItemIds block (itemCountOf hdr) 0 <;> rfl

/-! ## The claims on tuple decoding and error handling -/

/-- C11 (as stated, refuted): `ParseTuple` succeeds on 23 zero bytes; the returned
`THoff` is 0, which is not at least 23, and the tuple, whose stored `hoff` is 0
wherever it is kept, is not rejected. -/
theorem ParseTuple_accepts_zero_hoff :
    ∃ t, ParseTuple zeroTuple23 = .ok t ∧ t.Header.THoff = 0 ∧ ¬ 23 ≤ t.Header.THoff ∧
      (∀ b ∈ zeroTuple23, b.val < 23) ∧ (ParseTuple zeroTuple23).isError = false :=
  ⟨{ Header := HeapTupleHeaderData.zero, Data := zeroTuple23, Size := 0 },
    by decide, rfl, by decide,
    fun b hb => by
      have hb0 : b = 0 := List.eq_of_mem_replicate hb
      rw [hb0]; decide,
    by decide⟩

/-- C11 (amended): for every byte sequence on which `ParseTuple` succeeds, the
returned header is the zero value, so `THoff = 0` whatever the tuple bytes hold; no
stored `hoff` is read or checked: the input has at least 23 bytes and that is the
only condition. -/
theorem ParseTuple_header_zero (data : List Byte) (t : Tuple) (h : ParseTuple data = .ok t) :
    t.Header = HeapTupleHeaderData.zero ∧ t.Header.THoff = 0 ∧ 23 ≤ data.length := by
  by_cases hs : data.length < 23
  · rw [ParseTuple_short hs] at h; cases h
  · rw [ParseTuple_ok (by omega)] at h
    simp only [Outcome.ok.injEq] at h
    subst h
    exact ⟨rfl, rfl, by omega⟩

/-- Witness for C11 (amended): the 24 bytes `1, .., 24`. -/
theorem ParseTuple_header_zero_witness :
    ParseTuple countTuple =
      .ok { Header := HeapTupleHeaderData.zero, Data := countTuple, Size := 0 } ∧
    ({ Header := HeapTupleHeaderData.zero, Data := countTuple, Size := 0 } : Tuple).Header.THoff
      = 0 ∧
    23 ≤ countTuple.length :=
  have h : ParseTuple countTuple =
      .ok { Header := HeapTupleHeaderData.zero, Data := countTuple, Size := 0 } := by decide
  ⟨h, (ParseTuple_header_zero countTuple _ h).2⟩

/-- C12 (as stated, refuted): `mixedBlock` parses to a page whose slot 0 holds a
readable 23-byte tuple and whose slot 1 holds 12 bytes that fail `ParseTuple`;
`GetTuples` does not skip slot 1 and return the tuple of slot 0: it returns the error
"failed to parse tuple 1" and no tuple. -/
theorem GetTuples_fails_on_mixed_page :
    ParsePage mixedBlock = .ok mixedPage ∧
    mixedPage.ItemIds = [{ LpOff := 8000, LpFlags := 1, LpLen := 23 },
                         { LpOff := 8100, LpFlags := 1, LpLen := 12 }] ∧
    (ParseTuple ((mixedBlock.drop 8000).take 23)).isOk = true ∧
    (ParseTuple ((mixedBlock.drop 8100).take 12)).isError = true ∧
    GetTuples mixedPage = .error (.parseTupleFailed 1 (.tupleTooShort 23 12)) ∧
    (GetTuples mixedPage).isOk = false := by
  have h0 : ((mixedBlock.drop 8000).take 23).length = 23 :=
    length_take_drop (by rw [mixedBlock_length]; decide)
  have h1 : ((mixedBlock.drop 8100).take 12).length = 12 :=
    length_take_drop (by rw [mixedBlock_length]; decide)
  refine ⟨ParsePage_mixedBlock, rfl, ?_, ?_, GetTuples_mixedPage, ?_⟩
  · rw [ParseTuple_ok (by omega)]; rfl
  · rw [ParseTuple_short (by omega)]; rfl
  · rw [GetTuples_mixedPage]; rfl

/-- C12 (amended): for every page in which one extracted slot's tuple is unreadable
(its range is out of bounds, or its bytes fail `ParseTuple`), `GetTuples` returns an
error and no tuples, also when other slots hold readable tuples. -/
theorem GetTuples_aborts_on_unreadable (page : Page)
    (h : ∃ it ∈ page.ItemIds, isExtracted it = true ∧
      (page.RawData.length < it.LpOff + it.LpLen ∨
        (ParseTuple ((page.RawData.drop it.LpOff).take it.LpLen)).isError = true)) :
    (GetTuples page).isError = true ∧ (GetTuples page).isOk = false := by
  have hun : ∃ it ∈ page.ItemIds, isExtracted it = true ∧ ¬ isReadable page.RawData it := by
    obtain ⟨it, hm, hx, hbad⟩ := h
    refine ⟨it, hm, hx, ?_⟩
    rintro ⟨hb, hs⟩
    rcases hbad with hoob | hpt
    · omega
    · rw [ParseTuple_ok (by rw [length_take_drop hb]; exact hs)] at hpt
      cases hpt
  have herr := getTuplesLoop_error_of_unreadable page.RawData page.ItemIds 0 [] hun
  refine ⟨herr, ?_⟩
  unfold GetTuples
  cases hg : getTuplesLoop page.RawData 0 page.ItemIds [] with
  | ok ts => rw [hg] at herr; cases herr
  | error e => rfl
  | panic => rfl

/-- Witness for C12 (amended): slot 1 of `mixedPage` holds 12 bytes that fail
`ParseTuple`. -/
theorem GetTuples_aborts_on_unreadable_witness :
    (∃ it ∈ mixedPage.ItemIds, isExtracted it = true ∧
      (mixedPage.RawData.length < it.LpOff + it.LpLen ∨
        (ParseTuple ((mixedPage.RawData.drop it.LpOff).take it.LpLen)).isError = true)) ∧
    (GetTuples mixedPage).isError = true ∧ (GetTuples mixedPage).isOk = false :=
  have h1 : ((mixedBlock.drop 8100).take 12).length = 12 :=
    length_take_drop (by rw [mixedBlock_length]; decide)
  have h : ∃ it ∈ mixedPage.ItemIds, isExtracted it = true ∧
      (mixedPage.RawData.length < it.LpOff + it.LpLen ∨
        (ParseTuple ((mixedPage.RawData.drop it.LpOff).take it.LpLen)).isError = true) :=
    ⟨{ LpOff := 8100, LpFlags := 1, LpLen := 12 },
      List.mem_cons_of_mem _ (List.mem_singleton.mpr rfl), by decide,
      Or.inr (by
        show (ParseTuple ((mixedBlock.drop 8100).take 12)).isError = true
        rw [ParseTuple_short (by omega)]; rfl)⟩
  ⟨h, GetTuples_aborts_on_unreadable mixedPage h⟩

/-- C14 (as stated, refuted): `longBlock` has 8193 bytes, not 8192, and `ParsePage`
returns a page for it, not an error. -/
theorem ParsePage_accepts_long_block :
    longBlock.length = 8193 ∧ longBlock.length ≠ 8192 ∧
    (∃ page, ParsePage longBlock = .ok page) ∧ (ParsePage longBlock).isError = false := by
  have hlen : 8192 ≤ (specHead ++ List.replicate 8165 0).length := by
    have := longBlock_length
    unfold longBlock at this
    omega
  have hp : ParsePage longBlock =
      .ok { Header := headerOf 28 8180 8192, RawData := longBlock,
            ItemIds := [{ LpOff := 8180, LpFlags := 1, LpLen := 12 }], ItemCount := 1 } :=
    ParsePage_of_head _ (headerOf 28 8180 8192) hlen (by decide) (by decide)
      (by decide) (by decide)
  refine ⟨longBlock_length, by rw [longBlock_length]; decide, ⟨_, hp⟩, ?_⟩
  rw [hp]; rfl

/-- C14 (amended): `ParsePage` accepts a block only if its length is at least the
page size: it returns an error if and only if `len(block) < 8192`; a block longer
than 8192 bytes is not rejected for its length. -/
theorem ParsePage_error_iff_short (block : List Byte) :
    (ParsePage block).isError = true ↔ block.length < 8192 := by
  constructor
  · intro h
    by_cases hs : block.length < 8192
    · exact hs
    · rw [ParsePage_not_error_of_long (by omega)] at h
      cases h
  · intro h
    rw [ParsePage_short h]; rfl

/-- C15: for every block shorter than 8192 bytes, `ParsePage` returns the error
"page data too short" with 8192 and the block length; the result is the same for
every block of that length, so no byte of the block is read (a header read would
panic below 24 bytes). -/
theorem ParsePage_short_block (block : List Byte) (h : block.length < 8192) :
    ParsePage block = .error (.pageTooShort 8192 block.length) ∧
    ∀ other : List Byte, other.length = block.length → ParsePage other = ParsePage block := by
  refine ⟨ParsePage_short h, ?_⟩
  intro other ho
  rw [ParsePage_short h, ParsePage_short (by omega), ho]

/-- Witness for C15: the empty block and a block of ten bytes `7`. -/
theorem ParsePage_short_block_witness :
    ([] : List Byte).length < 8192 ∧
    ParsePage [] = .error (.pageTooShort 8192 0) ∧
    ParsePage (List.replicate 10 7) = .error (.pageTooShort 8192 10) :=
  ⟨by decide, (ParsePage_short_block [] (by decide)).1,
   (ParsePage_short_block (List.replicate 10 7) (by decide)).1⟩

/-- C16: for every page and every slot whose length field is 0, whatever its state,
`GetTuples` extracts no tuple for that slot and raises no error because of it: the
slot fails the extraction test, and `GetTuples` returns the same tuples, and an error
in the same cases, as on the page without that slot. -/
theorem GetTuples_zero_length_slot (hdr : HeapPageHeaderData) (raw : List Byte)
    (pre post : List ItemIdData) (it : ItemIdData) (n m : Nat) (h0 : it.LpLen = 0) :
    isExtracted it = false ∧
    (∀ ts, GetTuples { Header := hdr, RawData := raw, ItemIds := pre ++ it :: post,
                       ItemCount := n } = .ok ts ↔
           GetTuples { Header := hdr, RawData := raw, ItemIds := pre ++ post,
                       ItemCount := m } = .ok ts) ∧
    (GetTuples { Header := hdr, RawData := raw, ItemIds := pre ++ it :: post,
                 ItemCount := n }).isError =
      (GetTuples { Header := hdr, RawData := raw, ItemIds := pre ++ post,
                   ItemCount := m }).isError := by
  have hx := isExtracted_of_length_zero h0
  have hf : (pre ++ it :: post).filter isExtracted = (pre ++ post).filter isExtracted := by
    simp [List.filter_append, List.filter_cons, hx]
  refine ⟨hx, ?_⟩
  unfold GetTuples
  simp only
  by_cases hall : ∀ x ∈ pre ++ post, isExtracted x = true → isReadable raw x
  · have hall2 : ∀ x ∈ pre ++ it :: post, isExtracted x = true → isReadable raw x := by
      intro x hxm hxe
      rcases List.mem_append.mp hxm with hp | hq
      · exact hall x (List.mem_append.mpr (Or.inl hp)) hxe
      · rcases List.mem_cons.mp hq with rfl | hr
        · rw [hx] at hxe; cases hxe
        · exact hall x (List.mem_append.mpr (Or.inr hr)) hxe
    rw [getTuplesLoop_ok_of_readable raw _ 0 [] hall,
      getTuplesLoop_ok_of_readable raw _ 0 [] hall2, hf]
    exact ⟨fun _ => Iff.rfl, rfl⟩
  · have hex : ∃ x ∈ pre ++ post, isExtracted x = true ∧ ¬ isReadable raw x := by
      by_contra hc
      apply hall
      intro x hxm hxe
      by_contra hnr
      exact hc ⟨x, hxm, hxe, hnr⟩
    have hex2 : ∃ x ∈ pre ++ it :: post, isExtracted x = true ∧ ¬ isReadable raw x := by
      obtain ⟨x, hxm, hxe, hnr⟩ := hex
      refine ⟨x, ?_, hxe, hnr⟩
      rcases List.mem_append.mp hxm with hp | hq
      · exact List.mem_append.mpr (Or.inl hp)
      · exact List.mem_append.mpr (Or.inr (List.mem_cons_of_mem it hq))
    have e1 := getTuplesLoop_error_of_unreadable raw _ 0 [] hex
    have e2 := getTuplesLoop_error_of_unreadable raw _ 0 [] hex2
    refine ⟨fun ts => ⟨fun hk => ?_, fun hk => ?_⟩, by rw [e1, e2]⟩
    · rw [hk] at e2; cases e2
    · rw [hk] at e1; cases e1

/-- Witness for C16: a page whose only slot is normal with length 0 yields no tuple
and no error. -/
theorem GetTuples_zero_length_slot_witness :
    ({ LpOff := 8000, LpFlags := 1, LpLen := 0 } : ItemIdData).LpLen = 0 ∧
    GetTuples { Header := zeroHeader, RawData := zeroBlock,
                ItemIds := [] ++ { LpOff := 8000, LpFlags := 1, LpLen := 0 } :: [],
                ItemCount := 1 } = .ok [] :=
  ⟨rfl, ((GetTuples_zero_length_slot zeroHeader zeroBlock [] []
    { LpOff := 8000, LpFlags := 1, LpLen := 0 } 1 0 rfl).2.1 []).mpr rfl⟩

/-- C17 (the code at the failing input): for the 24 tuple bytes `1, .., 24`,
`ParseTuple` returns a tuple whose `Data` is the whole input, 24 bytes beginning with
the 23 header bytes; no header byte is removed. -/
theorem ParseTuple_data_is_whole_input :
    ∃ t, ParseTuple countTuple = .ok t ∧ t.Data = countTuple ∧
      t.Data.length = countTuple.length ∧ t.Data.take 23 = countTuple.take 23 :=
  ⟨{ Header := HeapTupleHeaderData.zero, Data := countTuple, Size := 0 },
    by decide, rfl, rfl, rfl⟩

/-! ### Field layout of `ReadHeapPageHeader` -/

theorem readUint16_at {data : List Byte} {o : Nat} (h : o + 2 ≤ data.length) :
    readUint16 data o (o + 2) = some (be16At data o) := by
  have hd : data.drop o = data[o] :: data[o + 1] :: data.drop (o + 2) := by
    rw [List.drop_eq_getElem_cons (by omega : o < data.length),
      List.drop_eq_getElem_cons (by omega : o + 1 < data.length)]
  rw [readUint16_of_drop hd]
  simp only [be16At, List.getD_eq_getElem?_getD,
    List.getElem?_eq_getElem (by omega : o < data.length),
    List.getElem?_eq_getElem (by omega : o + 1 < data.length), Option.getD_some]

theorem readUint32_at {data : List Byte} {o : Nat} (h : o + 4 ≤ data.length) :
    readUint32 data o (o + 4) = some (be32At data o) := by
  rw [readUint32_of_drop (drop_eq_four_cons h)]
  simp only [be32At, List.getD_eq_getElem?_getD,
    List.getElem?_eq_getElem (by omega : o < data.length),
    List.getElem?_eq_getElem (by omega : o + 1 < data.length),
    List.getElem?_eq_getElem (by omega : o + 2 < data.length),
    List.getElem?_eq_getElem (by omega : o + 3 < data.length), Option.getD_some]

theorem ReadHeapPageHeader_eq {data : List Byte} (h : 24 ≤ data.length) :
    ReadHeapPageHeader data =
      some { PDLSN := { XLogID := be32At data 0, XRecOff := be32At data 4 },
             PDChecksum := be16At data 8, PDFlags := be16At data 10,
             PDLower := be16At data 12, PDUpper := be16At data 14,
             PDSpecial := be16At data 16, PDPagesizeVersion := be16At data 18,
             PDPruneXID := be32At data 20 } := by
  have r0 : readUint32 data 0 4 = some (be32At data 0) := readUint32_at (by omega)
  have r4 : readUint32 data 4 8 = some (be32At data 4) := readUint32_at (by omega)
  have r8 : readUint16 data 8 10 = some (be16At data 8) := readUint16_at (by omega)
  have r10 : readUint16 data 10 12 = some (be16At data 10) := readUint16_at (by omega)
  have r12 : readUint16 data 12 14 = some (be16At data 12) := readUint16_at (by omega)
  have r14 : readUint16 data 14 16 = some (be16At data 14) := readUint16_at (by omega)
  have r16 : readUint16 data 16 18 = some (be16At data 16) := readUint16_at (by omega)
  have r18 : readUint16 data 18 20 = some (be16At data 18) := readUint16_at (by omega)
  have r20 : readUint32 data 20 24 = some (be32At data 20) := readUint32_at (by omega)
  unfold ReadHeapPageHeader
  rw [r0, r4, r8, r10, r12, r14, r16, r18, r20]
  rfl

theorem ReadHeapPageHeader_take {data : List Byte} (h : 24 ≤ data.length) :
    ReadHeapPageHeader data = ReadHeapPageHeader (data.take 24) := by
  have hl : 24 ≤ (data.take 24).length := by rw [List.length_take]; omega
  have := ReadHeapPageHeader_append_left (data.drop 24) hl
  rw [List.take_append_drop] at this
  exact this

/-! ### The loop of `ProcessAllPages` -/

theorem processLoop_stops (reader : FileReader) (e : Error) :
    ∀ (j k : Nat) (start : Int) (printed : List (Int × Nat)), j < k →
      (∀ m : Nat, m < j → (ProcessPage reader (start + (m : Int))).isOk = true) →
      ProcessPage reader (start + (j : Int)) = .error e →
      ∃ lines, processLoop reader k start printed =
          (printed ++ lines, .error (.processPageFailed (start + (j : Int)) e)) ∧
        lines.map Prod.fst = (List.range j).map (fun m : Nat => start + (m : Int)) := by
  intro j
  induction j with
  | zero =>
    intro k start printed hk _ hfail
    obtain ⟨k, rfl⟩ : ∃ k0, k = k0 + 1 := ⟨k - 1, by omega⟩
    simp only [Nat.cast_zero, Int.add_zero] at hfail ⊢
    refine ⟨[], ?_, rfl⟩
    simp only [processLoop, hfail, List.append_nil]
  | succ j ih =>
    intro k start printed hk hok hfail
    obtain ⟨k, rfl⟩ : ∃ k0, k = k0 + 1 := ⟨k - 1, by omega⟩
    have h0 := hok 0 (by omega)
    simp only [Nat.cast_zero, Int.add_zero] at h0
    cases hp : ProcessPage reader start with
    | error e0 => rw [hp] at h0; cases h0
    | panic => rw [hp] at h0; cases h0
    | ok res =>
      obtain ⟨page, tuples⟩ := res
      have hok2 : ∀ m : Nat, m < j →
          (ProcessPage reader (start + 1 + (m : Int))).isOk = true := by
        intro m hm
        have := hok (m + 1) (by omega)
        have he : start + ((m + 1 : Nat) : Int) = start + 1 + (m : Int) := by
          push_cast; omega
        rw [he] at this
        exact this
      have hfail2 : ProcessPage reader (start + 1 + (j : Int)) = .error e := by
        have he : start + ((j + 1 : Nat) : Int) = start + 1 + (j : Int) := by
          push_cast; omega
        rw [he] at hfail
        exact hfail
      obtain ⟨lines, hl, hm⟩ :=
        ih k (start + 1) (printed ++ [(start, tuples.length)]) (by omega) hok2 hfail2
      have he : start + ((j + 1 : Nat) : Int) = start + 1 + (j : Int) := by
        push_cast; omega
      refine ⟨(start, tuples.length) :: lines, ?_, ?_⟩
      · simp only [processLoop, hp, hl, he, List.append_assoc, List.singleton_append]
      · rw [List.map_cons, hm, List.range_succ_eq_map, List.map_cons, List.map_map]
        simp only [Nat.cast_zero, Int.add_zero, List.cons.injEq, true_and]
        apply List.map_congr_left
        intro m _
        simp only [Function.comp, Nat.succ_eq_add_one]
        push_cast
        omega

theorem ProcessPage_brokenFirstReader_one :
    ProcessPage brokenFirstReader 1 =
      .ok (deadPage, [tupleOf deadBlock { LpOff := 8000, LpFlags := 3, LpLen := 23 }]) := by
  have hr : brokenFirstReader.ReadPage 1 = .ok deadBlock := rfl
  simp only [ProcessPage, hr, ParsePage_deadBlock, GetTuples_deadPage]

theorem ProcessPage_brokenFirstReader_zero :
    ProcessPage brokenFirstReader 0 = .error (.readPageFailed 0 .invalid) := by
  have hr : brokenFirstReader.ReadPage 0 = .error .invalid := rfl
  simp only [ProcessPage, hr]

/-! ### `PgFileReader` -/

theorem pageOffset_mod (p : Int) : pageOffset p % 8192 = 0 := by
  unfold pageOffset wrapInt64 BLCKSZ
  push_cast
  omega

theorem pageOffset_range (p : Int) :
    -9223372036854775808 ≤ pageOffset p ∧ pageOffset p < 9223372036854775808 := by
  unfold pageOffset wrapInt64 BLCKSZ
  push_cast
  omega

theorem pageOffset_of_small {p : Int} (h0 : 0 ≤ p) (h1 : p < 1125899906842624) :
    pageOffset p = p * 8192 := by
  unfold pageOffset wrapInt64 BLCKSZ
  push_cast
  omega

theorem ReadAt_full {contents : List Byte} {bufLen : Nat} {off : Int} (h0 : 0 ≤ off)
    (h : off.toNat + bufLen ≤ contents.length) :
    ReadAt (some contents) bufLen off =
      (bufLen, (contents.drop off.toNat).take bufLen, none) := by
  have hl : ((contents.drop off.toNat).take bufLen).length = bufLen := length_take_drop h
  have hn : ¬ off < 0 := by omega
  simp only [ReadAt, hn, if_false, hl, Nat.lt_irrefl, Nat.sub_self, List.replicate_zero,
    List.append_nil]

theorem ReadAt_eof (contents : List Byte) (bufLen : Nat) {off : Int} (h0 : 0 ≤ off)
    (hpos : 0 < bufLen) (h : contents.length < off.toNat + bufLen) :
    (ReadAt (some contents) bufLen off).2.2 = some .eof := by
  have hl : ((contents.drop off.toNat).take bufLen).length < bufLen := by
    have hd : (contents.drop off.toNat).length = contents.length - off.toNat :=
      List.length_drop _ _
    have ht : ((contents.drop off.toNat).take bufLen).length =
        min bufLen (contents.drop off.toNat).length := List.length_take _ _
    rw [ht, hd]
    omega
  have hn : ¬ off < 0 := by omega
  simp only [ReadAt, hn, if_false, hl, if_true]

theorem ReadAt_negative {contents : List Byte} {bufLen : Nat} {off : Int} (h0 : off < 0) :
    ReadAt (some contents) bufLen off =
      (0, List.replicate bufLen 0, some .negativeOffset) := by
  simp only [ReadAt, h0, if_true]

theorem bytesToReadAt_eq {fileSize off : Int} (h0 : 0 ≤ off) (h1 : off < fileSize)
    (h2 : fileSize < 9223372036854775808) (h3 : off + 8192 < 9223372036854775808) :
    bytesToReadAt fileSize off = min 8192 (fileSize - off) := by
  unfold bytesToReadAt wrapInt64 BLCKSZ
  push_cast
  split <;> omega

theorem bytesToReadAt_overflow {fileSize off : Int} (h1 : off < fileSize)
    (h2 : fileSize < 9223372036854775808) (h3 : 9223372036854775808 ≤ off + 8192) :
    bytesToReadAt fileSize off = 8192 := by
  unfold bytesToReadAt wrapInt64 BLCKSZ
  push_cast
  split <;> omega

theorem ReadPage_opened_ok {contents : List Byte} {p : Int}
    (hsize : (contents.length : Int) < 9223372036854775808)
    (h0 : 0 ≤ pageOffset p) (h1 : pageOffset p < (contents.length : Int))
    (h3 : pageOffset p + 8192 < 9223372036854775808) :
    (opened contents).ReadPage p =
      .ok ((contents.drop (pageOffset p).toNat).take 8192) := by
  have hb := bytesToReadAt_eq h0 h1 hsize h3
  have hge : ¬ pageOffset p ≥ (contents.length : Int) := by omega
  have hnn : ¬ bytesToReadAt (contents.length : Int) (pageOffset p) < 0 := by
    rw [hb]; omega
  have hfit : (pageOffset p).toNat + (bytesToReadAt (contents.length : Int) (pageOffset p)).toNat
      ≤ contents.length := by
    rw [hb]; omega
  have hcast : (((bytesToReadAt (contents.length : Int) (pageOffset p)).toNat : Nat) : Int) =
      bytesToReadAt (contents.length : Int) (pageOffset p) := Int.toNat_of_nonneg (by omega)
  have htake : (contents.drop (pageOffset p).toNat).take
        (bytesToReadAt (contents.length : Int) (pageOffset p)).toNat =
      (contents.drop (pageOffset p).toNat).take 8192 := by
    by_cases hc : (contents.length : Int) - pageOffset p < 8192
    · have hl : (contents.drop (pageOffset p).toNat).length =
          contents.length - (pageOffset p).toNat := List.length_drop _ _
      rw [List.take_of_length_le (by rw [hb]; omega), List.take_of_length_le (by omega)]
    · have : (bytesToReadAt (contents.length : Int) (pageOffset p)).toNat = 8192 := by
        rw [hb]; omega
      rw [this]
  simp only [PgFileReader.ReadPage, opened, hge, hnn, if_false, ReadAt_full h0 hfit, hcast,
    ne_eq, not_true_eq_false, htake]

theorem ReadPage_opened_overflow {contents : List Byte} {p : Int}
    (hsize : (contents.length : Int) < 9223372036854775808)
    (h1 : pageOffset p < (contents.length : Int))
    (h3 : 9223372036854775808 ≤ pageOffset p + 8192) :
    (opened contents).ReadPage p = .error .eof := by
  have hb := bytesToReadAt_overflow h1 hsize h3
  have h0 : 0 ≤ pageOffset p := by omega
  have hge : ¬ pageOffset p ≥ (contents.length : Int) := by omega
  have heof := ReadAt_eof contents 8192 h0 (by decide) (by omega)
  unfold PgFileReader.ReadPage
  simp only [opened, hge, if_false, hb]
  have h8 : ¬ (8192 : Int) < 0 := by decide
  have ht : (8192 : Int).toNat = 8192 := rfl
  rw [if_neg h8, ht]
  generalize ReadAt (some contents) 8192 (pageOffset p) = res at heof
  obtain ⟨n, buf, err⟩ := res
  simp only at heof
  subst heof
  rfl

theorem ReadPage_opened_beyond {contents : List Byte} {p : Int}
    (h1 : (contents.length : Int) ≤ pageOffset p) :
    (opened contents).ReadPage p = .error .invalid := by
  have hge : pageOffset p ≥ (contents.length : Int) := h1
  simp only [PgFileReader.ReadPage, opened, hge, if_true]

theorem ReadPage_opened_negative {contents : List Byte} {p : Int} (h0 : pageOffset p < 0) :
    (opened contents).ReadPage p = .error .negativeOffset := by
  have hge : ¬ pageOffset p ≥ (contents.length : Int) := by omega
  have hm := pageOffset_mod p
  have hr := pageOffset_range p
  have hb : bytesToReadAt (contents.length : Int) (pageOffset p) = 8192 := by
    unfold bytesToReadAt wrapInt64 BLCKSZ
    push_cast
    split <;> omega
  simp only [PgFileReader.ReadPage, opened, hge, if_false, hb, ReadAt_negative h0]
  rfl

theorem GetPageCount_eq {r : PgFileReader} (h : 0 ≤ r.fileSize) :
    r.GetPageCount = (r.fileSize + 8191) / 8192 := by
  unfold PgFileReader.GetPageCount BLCKSZ
  push_cast
  rw [Int.tdiv_eq_ediv h (by decide), Int.tmod_eq_emod h (by decide)]
  split
  · omega
  · split <;> omega

theorem smallFile_length : smallFile.length = 100 := by
  simp only [smallFile, List.length_replicate]

theorem ProcessPage_brokenSecondReader_zero :
    ProcessPage brokenSecondReader 0 =
      .ok (deadPage, [tupleOf deadBlock { LpOff := 8000, LpFlags := 3, LpLen := 23 }]) := by
  have hr : brokenSecondReader.ReadPage 0 = .ok deadBlock := rfl
  simp only [ProcessPage, hr, ParsePage_deadBlock, GetTuples_deadPage]

theorem ProcessPage_brokenSecondReader_one :
    ProcessPage brokenSecondReader 1 = .error (.readPageFailed 1 .invalid) := by
  have hr : brokenSecondReader.ReadPage 1 = .error .invalid := rfl
  simp only [ProcessPage, hr]

/-! ## The claims on the page processor, the header layout and the file reader -/

/-- C13 (as stated, refuted): `brokenFirstReader` has two pages; page 0 fails to read
and page 1 would be processed without error, but `ProcessAllPages` returns the error
"failed to process page 0" and prints nothing: page 1 is never processed. -/
theorem ProcessAllPages_stops_on_broken_first_page :
    (1 : Int) < brokenFirstReader.GetPageCount ∧
    (ProcessPage brokenFirstReader 1).isOk = true ∧
    ProcessAllPages brokenFirstReader =
      ([], .error (.processPageFailed 0 (.readPageFailed 0 .invalid))) := by
  refine ⟨by decide, by rw [ProcessPage_brokenFirstReader_one]; rfl, ?_⟩
  show processLoop brokenFirstReader 2 0 [] = _
  simp only [processLoop, ProcessPage_brokenFirstReader_zero]

/-- C13 (amended): `ProcessAllPages` processes the page numbers in increasing order
from 0 and stops at the first page `n < pageCount` that fails to read, parse or yield
tuples: it returns the error "failed to process page n", having printed a line for
exactly the pages `0 .. n-1`; no later page is processed. -/
theorem ProcessAllPages_stops_at_first_failure (reader : FileReader) (n : Nat) (e : Error)
    (hn : (n : Int) < reader.GetPageCount)
    (hok : ∀ m : Nat, m < n → (ProcessPage reader (m : Int)).isOk = true)
    (hfail : ProcessPage reader (n : Int) = .error e) :
    (ProcessAllPages reader).2 = .error (.processPageFailed (n : Int) e) ∧
    (ProcessAllPages reader).1.map Prod.fst = (List.range n).map (fun m : Nat => (m : Int)) := by
  have hlt : n < reader.GetPageCount.toNat := by omega
  obtain ⟨lines, hl, hm⟩ := processLoop_stops reader e n reader.GetPageCount.toNat 0 [] hlt
    (by intro m hm; rw [Int.zero_add]; exact hok m hm) (by rw [Int.zero_add]; exact hfail)
  unfold ProcessAllPages
  rw [hl]
  simp only [Int.zero_add, List.nil_append] at hm ⊢
  exact ⟨trivial, hm⟩

/-- Witness for C13 (amended): with `brokenSecondReader` page 0 is processed, page 1
fails to read, and page 2 is not processed. -/
theorem ProcessAllPages_stops_at_first_failure_witness :
    ((1 : Nat) : Int) < brokenSecondReader.GetPageCount ∧
    (ProcessAllPages brokenSecondReader).2 =
      .error (.processPageFailed 1 (.readPageFailed 1 .invalid)) ∧
    (ProcessAllPages brokenSecondReader).1.map Prod.fst = [0] :=
  ⟨by decide,
   ProcessAllPages_stops_at_first_failure brokenSecondReader 1 (.readPageFailed 1 .invalid)
     (by decide)
     (by
       intro m hm
       have hm0 : m = 0 := by omega
       subst hm0
       show (ProcessPage brokenSecondReader 0).isOk = true
       rw [ProcessPage_brokenSecondReader_zero]; rfl)
     ProcessPage_brokenSecondReader_one⟩

/-- C18: for every byte sequence of at least 24 bytes, `ReadHeapPageHeader` returns
the fields as big-endian integers at fixed consecutive offsets covering bytes 0..23:
XLogID `[0,4)`, XRecOff `[4,8)`, checksum `[8,10)`, flags `[10,12)`, lower `[12,14)`,
upper `[14,16)`, special `[16,18)`, pagesize/version `[18,20)`, prune XID `[20,24)`;
no byte at offset 24 or beyond influences the result. -/
theorem ReadHeapPageHeader_layout (data : List Byte) (h : 24 ≤ data.length) :
    ReadHeapPageHeader data =
      some { PDLSN := { XLogID := be32At data 0, XRecOff := be32At data 4 },
             PDChecksum := be16At data 8, PDFlags := be16At data 10,
             PDLower := be16At data 12, PDUpper := be16At data 14,
             PDSpecial := be16At data 16, PDPagesizeVersion := be16At data 18,
             PDPruneXID := be32At data 20 } ∧
    ∀ other : List Byte, other.take 24 = data.take 24 →
      ReadHeapPageHeader other = ReadHeapPageHeader data := by
  refine ⟨ReadHeapPageHeader_eq h, ?_⟩
  intro other ho
  have hl : (other.take 24).length = (data.take 24).length := by rw [ho]
  rw [List.length_take, List.length_take] at hl
  rw [ReadHeapPageHeader_take h, ReadHeapPageHeader_take (by omega), ho]

/-- Witness for C18: the 28-byte head of the block of the concrete scenario decodes to
`lower = 28`, `upper = 8180`, `special = 8192`, pagesize/version `0x2004`. -/
theorem ReadHeapPageHeader_layout_witness :
    24 ≤ specHead.length ∧
    ReadHeapPageHeader specHead = some (headerOf 28 8180 8192) :=
  ⟨by decide, (ReadHeapPageHeader_layout specHead (by decide)).1.trans (by decide)⟩

/-- C19 (as stated, refuted): on a file of 100 bytes `ReadPage 0` succeeds and returns
a block of 100 bytes, not 8192. -/
theorem ReadPage_returns_short_block :
    (opened smallFile).ReadPage 0 = .ok smallFile ∧ smallFile.length = 100 ∧
      smallFile.length ≠ 8192 := by
  have h0 : pageOffset 0 = 0 := by decide
  have hs : (smallFile.length : Int) < 9223372036854775808 := by
    rw [smallFile_length]; decide
  have hr := ReadPage_opened_ok hs (by rw [h0]) (by rw [h0, smallFile_length]; decide)
    (by rw [h0]; decide)
  rw [h0] at hr
  have ht : (smallFile.drop (0 : Int).toNat).take 8192 = smallFile := by
    show (smallFile.drop 0).take 8192 = smallFile
    rw [List.drop_zero, List.take_of_length_le (by rw [smallFile_length]; decide)]
  rw [ht] at hr
  exact ⟨hr, smallFile_length, by rw [smallFile_length]; decide⟩

/-- C19 (amended): every block that `ReadPage` returns successfully, on a reader
opened on a file of `s` bytes, holds the bytes of the file from the byte offset
`o = pageNumber * 8192` on, up to 8192 of them: its length is `min(8192, s - o)`,
between 1 and 8192, and is less than 8192 for a trailing partial page. -/
theorem ReadPage_block_length (contents : List Byte) (p : Int) (block : List Byte)
    (hsize : (contents.length : Int) < 9223372036854775808)
    (h : (opened contents).ReadPage p = .ok block) :
    0 ≤ pageOffset p ∧ pageOffset p < (contents.length : Int) ∧
    block = (contents.drop (pageOffset p).toNat).take 8192 ∧
    block.length = min 8192 (contents.length - (pageOffset p).toNat) ∧
    0 < block.length ∧ block.length ≤ 8192 := by
  by_cases hneg : pageOffset p < 0
  · rw [ReadPage_opened_negative hneg] at h; cases h
  · by_cases hbey : (contents.length : Int) ≤ pageOffset p
    · rw [ReadPage_opened_beyond hbey] at h; cases h
    · by_cases hov : 9223372036854775808 ≤ pageOffset p + 8192
      · rw [ReadPage_opened_overflow hsize (by omega) hov] at h; cases h
      · rw [ReadPage_opened_ok hsize (by omega) (by omega) (by omega)] at h
        simp only [Outcome.ok.injEq] at h
        subst h
        have hl : ((contents.drop (pageOffset p).toNat).take 8192).length =
            min 8192 (contents.length - (pageOffset p).toNat) := by
          rw [List.length_take, List.length_drop]
        refine ⟨by omega, by omega, rfl, hl, ?_, ?_⟩ <;> rw [hl] <;> omega

/-- Witness for C19 (amended): page 0 of the 100-byte file. -/
theorem ReadPage_block_length_witness :
    (smallFile.length : Int) < 9223372036854775808 ∧
    (opened smallFile).ReadPage 0 = .ok smallFile ∧
    smallFile.length = min 8192 (smallFile.length - (pageOffset 0).toNat) :=
  have hs : (smallFile.length : Int) < 9223372036854775808 := by
    rw [smallFile_length]; decide
  have h : (opened smallFile).ReadPage 0 = .ok smallFile := by
    have h0 : pageOffset 0 = 0 := by decide
    have hr := ReadPage_opened_ok hs (by rw [h0]) (by rw [h0, smallFile_length]; decide)
      (by rw [h0]; decide)
    rw [h0] at hr
    have ht : (smallFile.drop (0 : Int).toNat).take 8192 = smallFile := by
      show (smallFile.drop 0).take 8192 = smallFile
      rw [List.drop_zero, List.take_of_length_le (by rw [smallFile_length]; decide)]
    rw [ht] at hr
    exact hr
  ⟨hs, h, (ReadPage_block_length smallFile 0 smallFile hs h).2.2.2.1⟩

/-- C20: for every file size `s ≥ 0`, `GetPageCount` returns the ceiling of
`s / 8192`: 0 for an empty file, `s / 8192` when `s` is a multiple of 8192, and
`s / 8192 + 1` otherwise. -/
theorem GetPageCount_ceil (r : PgFileReader) (h : 0 ≤ r.fileSize) :
    r.GetPageCount = (r.fileSize + 8191) / 8192 ∧
    (r.fileSize ≤ 8192 * r.GetPageCount ∧ 8192 * r.GetPageCount < r.fileSize + 8192) ∧
    (r.fileSize = 0 → r.GetPageCount = 0) ∧
    (r.fileSize % 8192 = 0 → r.GetPageCount = r.fileSize / 8192) ∧
    (r.fileSize % 8192 ≠ 0 → r.GetPageCount = r.fileSize / 8192 + 1) := by
  have hc := GetPageCount_eq h
  refine ⟨hc, ?_, ?_, ?_, ?_⟩ <;> rw [hc] <;> omega

/-- Witness for C20: the 100-byte file has one page. -/
theorem GetPageCount_ceil_witness :
    0 ≤ (opened smallFile).fileSize ∧ (opened smallFile).GetPageCount = 1 :=
  have h : 0 ≤ (opened smallFile).fileSize := Int.ofNat_nonneg _
  ⟨h, (GetPageCount_ceil (opened smallFile) h).1.trans (by
    show ((smallFile.length : Int) + 8191) / 8192 = 1
    rw [smallFile_length]; decide)⟩

/-! ### `GetTuples`: no panic, and where the out-of-bounds error comes from -/

theorem getTuplesLoop_ne_panic (raw : List Byte) (items : List ItemIdData) (i : Nat)
    (acc : List Tuple) : getTuplesLoop raw i items acc ≠ .panic := by
  by_cases hall : ∀ x ∈ items, isExtracted x = true → isReadable raw x
  · rw [getTuplesLoop_ok_of_readable raw items i acc hall]
    intro h; cases h
  · have hex : ∃ x ∈ items, isExtracted x = true ∧ ¬ isReadable raw x := by
      by_contra hc
      apply hall
      intro x hxm hxe
      by_contra hnr
      exact hc ⟨x, hxm, hxe, hnr⟩
    have he := getTuplesLoop_error_of_unreadable raw items i acc hex
    intro h
    rw [h] at he
    cases he

theorem getTuplesLoop_append_readable (raw : List Byte) :
    ∀ (pre : List ItemIdData) (i : Nat) (acc : List Tuple) (rest : List ItemIdData),
      (∀ x ∈ pre, isExtracted x = true → isReadable raw x) →
        getTuplesLoop raw i (pre ++ rest) acc =
          getTuplesLoop raw (i + pre.length) rest
            (acc ++ (pre.filter isExtracted).map (tupleOf raw)) := by
  intro pre
  induction pre with
  | nil => intro i acc rest _; simp
  | cons it pre ih =>
    intro i acc rest h
    have hpre : ∀ x ∈ pre, isExtracted x = true → isReadable raw x :=
      fun x hx => h x (List.mem_cons_of_mem it hx)
    have hi : i + 1 + pre.length = i + (it :: pre).length := by
      simp only [List.length_cons]; omega
    cases hx : isExtracted it with
    | false =>
      rw [List.cons_append, getTuplesLoop_skip raw i _ acc hx, ih (i + 1) acc rest hpre, hi]
      simp [List.filter_cons, hx]
    | true =>
      obtain ⟨hb, hs⟩ := h it (List.mem_cons_self it pre) hx
      rw [List.cons_append, getTuplesLoop_take raw i _ acc hx hb hs,
        ih (i + 1) _ rest hpre, hi]
      simp [List.filter_cons, hx]

theorem getTuplesLoop_oob_inv (raw : List Byte) :
    ∀ (items : List ItemIdData) (i : Nat) (acc : List Tuple) (j off len sz : Nat),
      getTuplesLoop raw i items acc = .error (.tupleOutOfBounds j off len sz) →
        ∃ pre it post, items = pre ++ it :: post ∧ j = i + pre.length ∧
          isExtracted it = true ∧ raw.length < it.LpOff + it.LpLen ∧
          (∀ x ∈ pre, isExtracted x = true → isReadable raw x) ∧
          off = it.LpOff ∧ len = it.LpLen ∧ sz = raw.length := by
  intro items
  induction items with
  | nil =>
    intro i acc j off len sz h
    simp [getTuplesLoop] at h
  | cons it rest ih =>
    intro i acc j off len sz h
    cases hx : isExtracted it with
    | false =>
      rw [getTuplesLoop_skip raw i rest acc hx] at h
      obtain ⟨pre, it1, post, hit, hj, he, hb, hr, ho, hl, hz⟩ := ih (i + 1) acc j off len sz h
      refine ⟨it :: pre, it1, post, by rw [hit]; rfl,
        by simp only [List.length_cons]; omega, he, hb, ?_, ho, hl, hz⟩
      intro x hxm hxe
      rcases List.mem_cons.mp hxm with rfl | hp
      · rw [hx] at hxe; cases hxe
      · exact hr x hp hxe
    | true =>
      by_cases hb : it.LpOff + it.LpLen ≤ raw.length
      · by_cases hs : 23 ≤ it.LpLen
        · rw [getTuplesLoop_take raw i rest acc hx hb hs] at h
          obtain ⟨pre, it1, post, hit, hj, he, hb1, hr, ho, hl, hz⟩ :=
            ih (i + 1) _ j off len sz h
          refine ⟨it :: pre, it1, post, by rw [hit]; rfl,
            by simp only [List.length_cons]; omega, he, hb1, ?_, ho, hl, hz⟩
          intro x hxm hxe
          rcases List.mem_cons.mp hxm with rfl | hp
          · exact ⟨hb, hs⟩
          · exact hr x hp hxe
        · rw [getTuplesLoop_short raw i rest acc hx hb (by omega)] at h
          cases h
      · rw [getTuplesLoop_oob raw i rest acc hx (by omega)] at h
        simp only [Outcome.error.injEq, Error.tupleOutOfBounds.injEq] at h
        obtain ⟨h1, h2, h3, h4⟩ := h
        refine ⟨[], it, rest, rfl, by simp only [List.length_nil]; omega, hx, by omega, ?_,
          h2.symm, h3.symm, h4.symm⟩
        intro x hxm
        cases hxm

/-! ### The bounds check of `ReadPage` away from `int64` overflow -/

theorem ReadPage_bounds_in_range (r : PgFileReader) (p : Int) (hs0 : 0 ≤ r.fileSize)
    (hs1 : r.fileSize ≤ 9223372036854767616) (hp0 : 0 ≤ p) (hp1 : p < 1125899906842624) :
    (r.accepts p = true ↔ p < r.GetPageCount) ∧
    (r.accepts p = true →
      bytesToReadAt r.fileSize (pageOffset p) = min 8192 (r.fileSize - p * 8192) ∧
      (bytesToReadAt r.fileSize (pageOffset p) < 8192 ↔
        p = r.GetPageCount - 1 ∧ r.fileSize % 8192 ≠ 0)) := by
  have ho := pageOffset_of_small hp0 hp1
  have hc := GetPageCount_eq hs0
  have hacc : r.accepts p = true ↔ p * 8192 < r.fileSize := by
    simp only [PgFileReader.accepts, ho, Bool.not_eq_true', decide_eq_false_iff_not, ge_iff_le,
      Int.not_le]
  refine ⟨by rw [hacc, hc]; omega, ?_⟩
  intro ha
  have hlt := hacc.mp ha
  have hb : bytesToReadAt r.fileSize (pageOffset p) = min 8192 (r.fileSize - p * 8192) := by
    rw [ho]
    exact bytesToReadAt_eq (by omega) hlt (by omega) (by omega)
  refine ⟨hb, ?_⟩
  rw [hb, hc]
  omega

/-! ## The claims on packing and bounds -/

/-- C21: for every slot record of 4 bytes at offset `o`, `ReadItemIdData` decodes a slot
whose `LpFlags` is one of 0, 1, 2, 3 (unused, normal, redirect, dead), whose `LpLen` is
at most 16383, and with `4 * LpLen + LpFlags` equal to the 16-bit packed word of bytes
`[o+2, o+4)`: the two fields share no bit and lose no bit. -/
theorem ReadItemIdData_packed (data : List Byte) (o : Nat) (h : o + 4 ≤ data.length) :
    ∃ it, ReadItemIdData data o = some it ∧
      (it.LpFlags = LP_UNUSED ∨ it.LpFlags = LP_NORMAL ∨ it.LpFlags = LP_REDIRECT ∨
        it.LpFlags = LP_DEAD) ∧
      it.LpLen ≤ 16383 ∧
      4 * it.LpLen + it.LpFlags = be16At data (o + 2) ∧ be16At data (o + 2) < 65536 := by
  have hw : readUint16 data (o + 2) (o + 2 + 2) = some (be16At data (o + 2)) :=
    readUint16_at (by omega)
  have hlt := readUint16_lt hw
  have hd := drop_eq_four_cons h
  have hr := ReadItemIdData_of_drop hd
  have hd2 : data.drop (o + 2) = data[o + 2] :: data[o + 3] :: data.drop (o + 4) := by
    rw [← List.drop_drop, hd]; rfl
  have hw2 := readUint16_of_drop hd2
  rw [hw2, Option.some.injEq] at hw
  refine ⟨_, hr, ?_, ?_, ?_, hlt⟩
  · simp only [LP_UNUSED, LP_NORMAL, LP_REDIRECT, LP_DEAD]
    omega
  · simp only
    omega
  · simp only
    omega

/-- Witness for C21: the slot bytes `1F F4 00 31` hold the packed word `0x0031 = 49`
and decode to state 1, length 12, with `4 * 12 + 1 = 49`. -/
theorem ReadItemIdData_packed_witness :
    0 + 4 ≤ ([0x1F, 0xF4, 0x00, 0x31] : List Byte).length ∧
    be16At [0x1F, 0xF4, 0x00, 0x31] 2 = 49 ∧
    ∃ it, ReadItemIdData [0x1F, 0xF4, 0x00, 0x31] 0 = some it ∧
      (it.LpFlags = LP_UNUSED ∨ it.LpFlags = LP_NORMAL ∨ it.LpFlags = LP_REDIRECT ∨
        it.LpFlags = LP_DEAD) ∧
      it.LpLen ≤ 16383 ∧
      4 * it.LpLen + it.LpFlags = be16At [0x1F, 0xF4, 0x00, 0x31] (0 + 2) ∧
      be16At [0x1F, 0xF4, 0x00, 0x31] (0 + 2) < 65536 :=
  ⟨by decide, by decide, ReadItemIdData_packed [0x1F, 0xF4, 0x00, 0x31] 0 (by decide)⟩

/-- C22: for every `Page` value, `GetTuples` returns tuples or returns an error and
never slices `RawData` out of range (no panic); when it returns tuples, every
extracted slot has `offset + length ≤ len(RawData)`; and it returns the out-of-bounds
error for index `i` exactly when slot `i` is not skipped and not in bounds and every
slot before it that is not skipped is in bounds and parses, so that the loop reaches
slot `i` as the first such slot. -/
theorem GetTuples_no_panic_and_bounds (page : Page) :
    GetTuples page ≠ .panic ∧
    (∀ ts, GetTuples page = .ok ts →
      ∀ it ∈ page.ItemIds, isExtracted it = true →
        it.LpOff + it.LpLen ≤ page.RawData.length) ∧
    (∀ i off len sz : Nat,
      GetTuples page = .error (.tupleOutOfBounds i off len sz) ↔
        ∃ pre it post, page.ItemIds = pre ++ it :: post ∧ pre.length = i ∧
          isExtracted it = true ∧ page.RawData.length < it.LpOff + it.LpLen ∧
          (∀ x ∈ pre, isExtracted x = true → isReadable page.RawData x) ∧
          off = it.LpOff ∧ len = it.LpLen ∧ sz = page.RawData.length) := by
  refine ⟨getTuplesLoop_ne_panic page.RawData page.ItemIds 0 [], ?_, ?_⟩
  · intro ts h it hm hx
    exact ((getTuplesLoop_ok_spec page.RawData page.ItemIds 0 [] ts h).2 it hm hx).1
  · intro i off len sz
    constructor
    · intro h
      obtain ⟨pre, it, post, hit, hj, he, hb, hr, ho, hl, hz⟩ :=
        getTuplesLoop_oob_inv page.RawData page.ItemIds 0 [] i off len sz h
      exact ⟨pre, it, post, hit, by omega, he, hb, hr, ho, hl, hz⟩
    · rintro ⟨pre, it, post, hit, hj, he, hb, hr, rfl, rfl, rfl⟩
      unfold GetTuples
      rw [hit, getTuplesLoop_append_readable page.RawData pre 0 [] _ hr,
        getTuplesLoop_oob page.RawData _ post _ he hb, Nat.zero_add, hj]

/-- C23: the slot count of `ParsePage` is computed in 16-bit unsigned arithmetic: for
every header with `lower < 24` the count is `(65536 + lower - 24) / 4`, at least 16378,
so the slot table it implies ends at or beyond byte offset 65536; it does not fit in
a block shorter than 65536 bytes, on which `ParsePage` panics, and on a block that
holds it `ParsePage` returns a page with that count. -/
theorem ParsePage_count_wraps (block : List Byte) (hdr : HeapPageHeaderData)
    (hlen : 8192 ≤ block.length) (hhdr : ReadHeapPageHeader block = some hdr)
    (hlow : hdr.PDLower < 24) :
    itemCountOf hdr = (65536 + hdr.PDLower - 24) / 4 ∧
    16378 ≤ itemCountOf hdr ∧
    65536 ≤ 24 + 4 * itemCountOf hdr ∧
    (block.length < 65536 → ParsePage block = .panic) ∧
    (24 + 4 * itemCountOf hdr ≤ block.length →
      ∃ page, ParsePage block = .ok page ∧ page.ItemCount = (65536 + hdr.PDLower - 24) / 4 ∧
        page.ItemIds.length = page.ItemCount) := by
  have hc := itemCountOf_wrap hlow
  refine ⟨hc, by rw [hc]; omega, by rw [hc]; omega, ?_, ?_⟩
  · intro hs
    exact ParsePage_panic hlen hhdr (by rw [hc]; omega)
  · intro hfit
    obtain ⟨ids, hids, hl, -⟩ := readItemIds_some block (itemCountOf hdr) 0 (by omega)
    exact ⟨_, ParsePage_ok hlen hhdr hids, hc, hl⟩

/-- Witness for C23: the all-zero 8192-byte block has `lower = 0`, slot count 16378,
and `ParsePage` panics on it. -/
theorem ParsePage_count_wraps_witness :
    8192 ≤ zeroBlock.length ∧ ReadHeapPageHeader zeroBlock = some zeroHeader ∧
    zeroHeader.PDLower < 24 ∧ itemCountOf zeroHeader = 16378 ∧
    ParsePage zeroBlock = .panic :=
  have hl : 8192 ≤ zeroBlock.length := Nat.le_of_eq zeroBlock_length.symm
  have hw := ParsePage_count_wraps zeroBlock zeroHeader hl ReadHeapPageHeader_zeroBlock
    (by decide)
  ⟨hl, ReadHeapPageHeader_zeroBlock, by decide, hw.1.trans (by decide),
   hw.2.2.2.1 (by rw [zeroBlock_length]; decide)⟩

/-- C24 (the code at the failing inputs): on a reader opened on the 100-byte file,
`GetPageCount` is 1, and the page number `2^51` is not below it, but its byte offset
`2^51 * 8192` wraps to 0 in `int64`, so the bounds check of `ReadPage` accepts it and
`ReadPage` returns the bytes of page 0. And for the file size `2^63 - 1` and the last
page, at byte offset `2^63 - 8192`, the sum `offset + 8192` wraps, so 8192 bytes are
requested where 8191 remain. -/
theorem ReadPage_accepts_wrapped_page :
    0 ≤ hugePage ∧ (opened smallFile).GetPageCount = 1 ∧
    ¬ hugePage < (opened smallFile).GetPageCount ∧
    pageOffset hugePage = 0 ∧
    (opened smallFile).accepts hugePage = true ∧
    (opened smallFile).ReadPage hugePage = .ok smallFile ∧
    pageOffset 1125899906842623 = 9223372036854767616 ∧
    bytesToReadAt maxFileSize (pageOffset 1125899906842623) = 8192 ∧
    min 8192 (maxFileSize - 1125899906842623 * 8192) = 8191 := by
  have hs : (smallFile.length : Int) < 9223372036854775808 := by
    rw [smallFile_length]; decide
  have h0 : pageOffset hugePage = 0 := by decide
  have hc : (opened smallFile).GetPageCount = 1 := by
    have hn : 0 ≤ (opened smallFile).fileSize := Int.ofNat_nonneg _
    rw [GetPageCount_eq hn]
    show ((smallFile.length : Int) + 8191) / 8192 = 1
    rw [smallFile_length]; decide
  have hr := ReadPage_opened_ok hs (by rw [h0]) (by rw [h0, smallFile_length]; decide)
    (by rw [h0]; decide)
  rw [h0] at hr
  have ht : (smallFile.drop (0 : Int).toNat).take 8192 = smallFile := by
    show (smallFile.drop 0).take 8192 = smallFile
    rw [List.drop_zero, List.take_of_length_le (by rw [smallFile_length]; decide)]
  rw [ht] at hr
  have ha : (opened smallFile).accepts hugePage = true := by
    show (!decide (pageOffset hugePage ≥ (smallFile.length : Int))) = true
    rw [h0, smallFile_length]; decide
  refine ⟨by decide, hc, by rw [hc]; decide, h0, ha, hr, by decide, by decide, by decide⟩

end Pdu
